import Mathlib

/-
  Verification development for the Vehicle-Parking-App repository.

  The repository contains two parallel implementations of the same web
  application: a standalone module `app.py` and a blueprint package
  `parking_app/` (`controllers.py`, `models.py`).  Both are embedded here:
  operations suffixed `C` follow `parking_app/controllers.py`, operations
  suffixed `A` follow `app.py`.  Where the two routes agree (reserve, create)
  a single function is used.

  Modelling conventions:
  * Python strings are `List Char`; comparison is by code point, as in Python.
  * SQLAlchemy tables are Lean lists kept in primary-key (insertion) order;
    `.first()` on an un-`order_by`-ed query is the first row in that order,
    which is how SQLite serves these queries.
  * `db.session.delete` / field assignment become pure list updates keyed by
    the row's integer primary key; primary keys are unique by construction.
  * Python `datetime` values are integer epoch seconds (`ℤ`); the various
    timezone localizations do not change the instant and are dropped.
  * Python `float` arithmetic on prices/costs is abstracted to `ℚ`;
    `round(x, 2)` becomes rational round-half-to-even on hundredths.
  * Python's stable `list.sort(key=...)` is embedded as `List.insertionSort`
    with the corresponding key order (every claim proved below is insensitive
    to which stable sort is used, and is only applied under distinct keys).
-/

namespace Parking

/-- The decimal digit character for `d` (0 ≤ d ≤ 9), code point `48 + d`. -/
def digitChar (d : ℕ) : Char := Char.ofNat (48 + d)

/-- Fuel-driven base-10 printer (structural recursion so that concrete spot
numbers evaluate inside the kernel); the fuel is always sufficient. -/
def natCharsRec : ℕ → ℕ → List Char
  | 0, _ => []
  | fuel + 1, n =>
    if n < 10 then [digitChar n]
    else natCharsRec fuel (n / 10) ++ [digitChar (n % 10)]

/-- The decimal digit characters of `n`, most significant first — the
characters Python's `f"{n}"` prints for a non-negative integer. -/
def natChars (n : ℕ) : List Char := natCharsRec (n + 1) n

/-- The characters Python's `f"{z}"` prints for an integer `z`
(a `-` sign followed by the decimal digits when `z < 0`). -/
def intChars (z : ℤ) : List Char :=
  if z < 0 then '-' :: natChars z.natAbs else natChars z.toNat

/-- Embedding of Python `str.upper()` on a single character, for the ASCII
characters this code base stores (spot numbers, names). -/
def pyUpper (c : Char) : Char :=
  if 'a' ≤ c ∧ c ≤ 'z' then Char.ofNat (c.toNat - 32) else c

/-- Value of a nonempty all-digit character list, as read by Python `int`;
`none` when empty or containing a non-digit. -/
def decDigits? (l : List Char) : Option ℕ :=
  if l ≠ [] ∧ l.all Char.isDigit then
    some (l.foldl (fun a c => 10 * a + (c.toNat - 48)) 0)
  else none

/-- Embedding of Python `int(s)`: an optional sign followed by decimal
digits; `none` models the `ValueError` raised otherwise.  (Python also
accepts surrounding whitespace and `_` separators between digits; no string
this application parses ever contains those, so they are not modelled.) -/
def pyInt? (s : List Char) : Option ℤ :=
  if s.head? = some '-' then (decDigits? s.tail).map (fun n => -(n : ℤ))
  else if s.head? = some '+' then (decDigits? s.tail).map (fun n => (n : ℤ))
  else (decDigits? s).map (fun n => (n : ℤ))

/-- `s.upper().replace('S', '')` — the normalization both
`get_spot_number` and `format_spot_number` apply before parsing. -/
def stripS (s : List Char) : List Char :=
  (s.map pyUpper).filter (fun c => !(c == 'S'))

/-- `int(spot_number.upper().replace('S', ''))`, with `none` for the
`ValueError` case. -/
def parseSpotNum? (s : List Char) : Option ℤ := pyInt? (stripS s)

/-- Embedding of `get_spot_number` (controllers.py): the numeric part of a
spot number, with the `except (ValueError, AttributeError): return 0`
fallback. -/
def get_spot_number (s : List Char) : ℤ := (parseSpotNum? s).getD 0

/-- Embedding of `format_spot_number` (controllers.py) on an `int` argument:
`f"S{number}"`. -/
def format_spot_number_int (z : ℤ) : List Char := 'S' :: intChars z

/-- Embedding of `format_spot_number` (controllers.py) on a `str` argument:
re-parse after upper-casing and removing `S`, and re-format; on failure
return the original string with an `S` prefix. -/
def format_spot_number_str (s : List Char) : List Char :=
  match parseSpotNum? s with
  | some num => 'S' :: intChars num
  | none => 'S' :: s

/-- Python string `<`: lexicographic comparison by code point. -/
def pyStrLt : List Char → List Char → Bool
  | [], [] => false
  | [], _ :: _ => true
  | _ :: _, [] => false
  | a :: as, b :: bs => if a < b then true else if b < a then false else pyStrLt as bs

/-- Floor of a rational, computed with integer floor-division (used to embed
Python's `round`). -/
def pyFloor (q : ℚ) : ℤ := q.num.fdiv (q.den : ℤ)

/-- Round-half-to-even to the nearest integer — the rounding Python's
`round` performs. -/
def roundHalfEven (x : ℚ) : ℤ :=
  let f := pyFloor x
  let r := x - (f : ℚ)
  if r < 1/2 then f else if (1 : ℚ)/2 < r then f + 1 else if Even f then f else f + 1

/-- Embedding of Python `round(x, 2)` on the rational abstraction of floats. -/
def pyRound2 (q : ℚ) : ℚ := ((roundHalfEven (q * 100) : ℤ) : ℚ) / 100

/- ### Data model (models.py / app.py): rows as structures, tables as lists
in primary-key order -/
structure Parking_lot where
  id : ℕ
  name : List Char
  address : List Char
  pincode : List Char
  price_per_hour : ℚ
  max_no_spots : ℕ
deriving DecidableEq

structure Parking_spot where
  id : ℕ
  parking_lot_id : ℕ
  spot_number : List Char
  status : Char
  user_id : Option ℕ
deriving DecidableEq

structure Booking where
  id : ℕ
  user_id : ℕ
  parking_lot_id : ℕ
  parking_spot_id : ℕ
  vehicle_number : List Char
  in_time : ℤ
  out_time : Option ℤ
  cost : Option ℚ
deriving DecidableEq

/-- The persistent state: the three tables (in primary-key order) plus the
autoincrement counters that produce fresh primary keys. -/
structure DB where
  lots : List Parking_lot
  spots : List Parking_spot
  bookings : List Booking
  next_lot_id : ℕ
  next_spot_id : ℕ
  next_booking_id : ℕ
deriving DecidableEq

/- ### OccupancyQuery: the read-only queries the routes issue -/
/-- `Parking_lot.query.get(lot_id)` -/
def findLot (db : DB) (L : ℕ) : Option Parking_lot :=
  db.lots.find? (fun l => l.id == L)

/-- `Booking.query.get(booking_id)` -/
def findBooking (db : DB) (bid : ℕ) : Option Booking :=
  db.bookings.find? (fun b => b.id == bid)

/-- `Parking_spot.query.filter_by(parking_lot_id=L).all()` -/
def spotsOfLot (db : DB) (L : ℕ) : List Parking_spot :=
  db.spots.filter (fun s => s.parking_lot_id == L)

/-- `Parking_spot.query.filter_by(parking_lot_id=L, status='O').count()` -/
def occupiedCount (db : DB) (L : ℕ) : ℕ :=
  (db.spots.filter (fun s => s.parking_lot_id == L && s.status == 'O')).length

/-- `Booking.query.filter_by(user_id=u, out_time=None).first()` -/
def activeBookingFor (db : DB) (u : ℕ) : Option Booking :=
  db.bookings.find? (fun b => b.user_id == u && b.out_time == none)

/-- `Parking_spot.query.filter_by(parking_lot_id=L, status='A').first()` —
no `order_by`, so the row served first in primary-key order. -/
def firstAvailable (db : DB) (L : ℕ) : Option Parking_spot :=
  db.spots.find? (fun s => s.parking_lot_id == L && s.status == 'A')

inductive ReserveOutcome where
  | alreadyParked
  | notFound
  | lotFull
  | reserved (spot_id booking_id : ℕ)
deriving DecidableEq

inductive ReleaseOutcome where
  | notFound
  | notYourBooking
  | success
deriving DecidableEq

inductive EditOutcome where
  | notFound
  | invalidCapacity
  | capacityBelowOccupancy
  | internalError
  | success
deriving DecidableEq

/- ### CreateLot (identical in app.py and controllers.py) -/
/-- `create_parking_lot` POST path: insert the lot, then spots numbered
`S1 .. S{max_no_spots}` in order. -/
def create_parking_lot (db : DB) (name address pincode : List Char)
    (price : ℚ) (max_no_spots : ℕ) : DB :=
  let lid := db.next_lot_id
  let lot : Parking_lot :=
    { id := lid, name := name, address := address, pincode := pincode,
      price_per_hour := price, max_no_spots := max_no_spots }
  let newSpots := (List.range' 1 max_no_spots).map (fun i =>
    ({ id := db.next_spot_id + (i - 1), parking_lot_id := lid,
       spot_number := format_spot_number_int (i : ℤ), status := 'A',
       user_id := none } : Parking_spot))
  { db with
    lots := db.lots ++ [lot],
    spots := db.spots ++ newSpots,
    next_lot_id := lid + 1,
    next_spot_id := db.next_spot_id + max_no_spots }

/- ### Reserve (identical logic in app.py and controllers.py; app.py passes
an explicit timezone-aware now, controllers.py the column default — both are
the clock value `now`) -/
/-- `reserve_spot` POST path. -/
def reserve_spot (db : DB) (u L : ℕ) (vehicle : List Char) (now : ℤ) :
    ReserveOutcome × DB :=
  match activeBookingFor db u with
  | some _ => (.alreadyParked, db)
  | none =>
    match findLot db L with
    | none => (.notFound, db)
    | some lot =>
      match firstAvailable db L with
      | none => (.lotFull, db)
      | some sp =>
        let spots' := db.spots.map (fun s =>
          if s.id == sp.id then { s with status := 'O', user_id := some u } else s)
        let b : Booking :=
          { id := db.next_booking_id, user_id := u, parking_lot_id := lot.id,
            parking_spot_id := sp.id, vehicle_number := vehicle,
            in_time := now, out_time := none, cost := none }
        (.reserved sp.id db.next_booking_id,
         { db with
           spots := spots',
           bookings := db.bookings ++ [b],
           next_booking_id := db.next_booking_id + 1 })

/- ### Release: app.py clamps the duration at 0, controllers.py does not -/
/-- `release_spot` from app.py: duration clamped non-negative before
costing; booking closed and spot freed unconditionally (no check that
`out_time` is still unset). -/
def release_spot_A (db : DB) (bid u : ℕ) (now : ℤ) : ReleaseOutcome × DB :=
  match findBooking db bid with
  | none => (.notFound, db)
  | some b =>
    if b.user_id ≠ u then (.notYourBooking, db)
    else
      match findLot db b.parking_lot_id with
      | none => (.notFound, db)
      | some lot =>
        let duration_seconds : ℚ := ((now - b.in_time : ℤ) : ℚ)
        let duration_hours : ℚ := max 0 (duration_seconds / 3600)
        let cost := pyRound2 (duration_hours * lot.price_per_hour)
        let bookings' := db.bookings.map (fun x =>
          if x.id == bid then { x with out_time := some now, cost := some cost } else x)
        let spots' := db.spots.map (fun s =>
          if s.id == b.parking_spot_id then { s with status := 'A', user_id := none } else s)
        (.success, { db with bookings := bookings', spots := spots' })

/-- `release_spot` from controllers.py: identical except the duration is
not clamped, so it can be negative. -/
def release_spot_C (db : DB) (bid u : ℕ) (now : ℤ) : ReleaseOutcome × DB :=
  match findBooking db bid with
  | none => (.notFound, db)
  | some b =>
    if b.user_id ≠ u then (.notYourBooking, db)
    else
      match findLot db b.parking_lot_id with
      | none => (.notFound, db)
      | some lot =>
        let duration_seconds : ℚ := ((now - b.in_time : ℤ) : ℚ)
        let duration_hours : ℚ := duration_seconds / 3600
        let cost := pyRound2 (duration_hours * lot.price_per_hour)
        let bookings' := db.bookings.map (fun x =>
          if x.id == bid then { x with out_time := some now, cost := some cost } else x)
        let spots' := db.spots.map (fun s =>
          if s.id == b.parking_spot_id then { s with status := 'A', user_id := none } else s)
        (.success, { db with bookings := bookings', spots := spots' })

/- ### ResizeLot, app.py flavour (`edit_parking_lot` in app.py): no
renumbering pass -/
/-- Sort key used by app.py when trimming: `int(x.spot_number[1:])`.
The `ValueError` Python would raise on an unparsable number is handled by
the guard in `edit_parking_lot_A`; the `getD` default is never reached. -/
def keyA (s : Parking_spot) : ℤ := (pyInt? (s.spot_number.drop 1)).getD 0

/-- `available_spots.sort(key=lambda x: int(x.spot_number[1:]), reverse=True)` -/
def sortByKeyADesc (l : List Parking_spot) : List Parking_spot :=
  List.insertionSort (fun a b => keyA b ≤ keyA a) l

/-- `edit_parking_lot` from app.py.  Growing adds spots numbered
`S{old+1} .. S{new}` from the recorded capacity; shrinking deletes the
highest-numbered Available spots; no renumbering happens.  `internalError`
models the uncommitted 500 response when `int(x.spot_number[1:])` raises. -/
def edit_parking_lot_A (db : DB) (L : ℕ) (name address pincode : List Char)
    (price : ℚ) (new_max : ℕ) : EditOutcome × DB :=
  match findLot db L with
  | none => (.notFound, db)
  | some lot =>
    let occupied_spots := occupiedCount db L
    if new_max < 1 then (.invalidCapacity, db)
    else if new_max < occupied_spots then (.capacityBelowOccupancy, db)
    else
      let lots' := db.lots.map (fun l =>
        if l.id == L then
          { l with
            name := name,
            address := address,
            pincode := pincode,
            price_per_hour := price,
            max_no_spots := new_max }
        else l)
      if lot.max_no_spots < new_max then
        let newSpots := (List.range' (lot.max_no_spots + 1) (new_max - lot.max_no_spots)).map (fun i =>
          ({ id := db.next_spot_id + (i - (lot.max_no_spots + 1)), parking_lot_id := L,
             spot_number := format_spot_number_int (i : ℤ), status := 'A',
             user_id := none } : Parking_spot))
        (.success,
         { db with
           lots := lots',
           spots := db.spots ++ newSpots,
           next_spot_id := db.next_spot_id + (new_max - lot.max_no_spots) })
      else if new_max < lot.max_no_spots then
        let available_spots := db.spots.filter (fun s => s.parking_lot_id == L && s.status == 'A')
        if available_spots.all (fun s => (pyInt? (s.spot_number.drop 1)).isSome) then
          let sortedDesc := sortByKeyADesc available_spots
          let spots_to_remove := sortedDesc.take (lot.max_no_spots - new_max)
          let removeIds := spots_to_remove.map (fun s => s.id)
          (.success,
           { db with
             lots := lots',
             spots := db.spots.filter (fun s => !(removeIds.contains s.id)) })
        else (.internalError, db)
      else (.success, { db with lots := lots' })

/- ### ResizeLot, controllers.py flavour (`edit_parking_lot` in
controllers.py): occupancy-aware trim plus a final renumbering pass -/
/-- Ascending stable sort by `get_spot_number`
(`all_spots.sort(key=get_spot_number)`). -/
def sortByNum (l : List Parking_spot) : List Parking_spot :=
  List.insertionSort (fun a b => get_spot_number a.spot_number ≤ get_spot_number b.spot_number) l

/-- Descending stable sort by `get_spot_number`
(`available_spots.sort(key=get_spot_number, reverse=True)`). -/
def sortByNumDesc (l : List Parking_spot) : List Parking_spot :=
  List.insertionSort (fun a b => get_spot_number b.spot_number ≤ get_spot_number a.spot_number) l

/-- The normalization loop of the grow branch:
`spot.spot_number = format_spot_number(spot.spot_number)` over the lot. -/
def normalizeLotSpots (db : DB) (L : ℕ) : List Parking_spot :=
  db.spots.map (fun s =>
    if s.parking_lot_id == L then { s with spot_number := format_spot_number_str s.spot_number } else s)

/-- The `highest_number` scan of the grow branch: fold of `max` over the
parsable spot numbers, starting at 0, parse failures skipped. -/
def highestNumber (spots : List Parking_spot) : ℤ :=
  spots.foldl (fun h s =>
    match parseSpotNum? s.spot_number with
    | some num => if h < num then num else h
    | none => h) 0

/-- The spots the grow branch of controllers.py `edit_parking_lot` adds:
`spots_to_add` fresh rows numbered `highest+1, highest+2, ...`. -/
def growSpots (db : DB) (L : ℕ) (old_max new_max : ℕ) : List Parking_spot :=
  let current_spots := (normalizeLotSpots db L).filter (fun s => s.parking_lot_id == L)
  let highest := highestNumber current_spots
  (List.range' 1 (new_max - old_max)).map (fun i =>
    ({ id := db.next_spot_id + (i - 1), parking_lot_id := L,
       spot_number := format_spot_number_int (highest + (i : ℤ)), status := 'A',
       user_id := none } : Parking_spot))

/-- The final renumbering pass of controllers.py `edit_parking_lot`: sort
the lot's spots by current number and assign `S1 .. Sn` in that order
(each row keyed by its primary key; primary keys are unique). -/
def renumberSpots (spots : List Parking_spot) (L : ℕ) : List Parking_spot :=
  let sortedIds := (sortByNum (spots.filter (fun s => s.parking_lot_id == L))).map (fun s => s.id)
  spots.map (fun s =>
    if s.parking_lot_id == L then
      { s with spot_number := format_spot_number_int (((sortedIds.findIdx (fun j => j == s.id)) + 1 : ℕ) : ℤ) }
    else s)

/-- `edit_parking_lot` from controllers.py. -/
def edit_parking_lot_C (db : DB) (L : ℕ) (name address pincode : List Char)
    (price : ℚ) (new_max : ℕ) : EditOutcome × DB :=
  match findLot db L with
  | none => (.notFound, db)
  | some lot =>
    let occupied_spots := occupiedCount db L
    if new_max < occupied_spots then (.capacityBelowOccupancy, db)
    else
      let lots' := db.lots.map (fun l =>
        if l.id == L then
          { l with
            name := name,
            address := address,
            pincode := pincode,
            price_per_hour := price,
            max_no_spots := new_max }
        else l)
      let db1 : DB :=
        if lot.max_no_spots < new_max then
          { db with
            spots := normalizeLotSpots db L ++ growSpots db L lot.max_no_spots new_max,
            next_spot_id := db.next_spot_id + (new_max - lot.max_no_spots) }
        else if new_max < lot.max_no_spots then
          let all_spots := sortByNum (spotsOfLot db L)
          let occupied_list := all_spots.filter (fun s => s.status == 'O')
          let available_list := all_spots.filter (fun s => s.status == 'A')
          let available_spots_to_keep := new_max - occupied_list.length
          if available_spots_to_keep < available_list.length then
            let availDesc := sortByNumDesc available_list
            let spots_to_remove := availDesc.take (available_list.length - available_spots_to_keep)
            let removeIds := spots_to_remove.map (fun s => s.id)
            { db with spots := db.spots.filter (fun s => !(removeIds.contains s.id)) }
          else db
        else db
      (.success, { db1 with lots := lots', spots := renumberSpots db1.spots L })

/- ### Concrete fixtures and executions used by the witnesses and
counterexamples below -/
def lotW : Parking_lot := ⟨1, ['L'], ['A'], ['P'], 60, 1⟩

/-- One lot, its single spot Occupied by user 1, the matching open booking. -/
def dbW : DB := ⟨[lotW], [⟨1, 1, ['S', '1'], 'O', some 1⟩],
  [⟨1, 1, 1, 1, ['V'], 3600, none, none⟩], 2, 2, 2⟩

def bW : Booking := ⟨1, 1, 1, 1, ['V'], 3600, none, none⟩

/-- One lot, its single spot Available, user 1's booking already closed. -/
def dbR : DB := ⟨[lotW], [⟨1, 1, ['S', '1'], 'A', none⟩],
  [⟨1, 1, 1, 1, ['V'], 0, some 3600, some 60⟩], 2, 2, 2⟩

def bR : Booking := ⟨1, 1, 1, 1, ['V'], 0, some 3600, some 60⟩

/-- One lot whose single spot is Occupied by user 2; no bookings. -/
def dbF : DB := ⟨[lotW], [⟨1, 1, ['S', '1'], 'O', some 2⟩], [], 2, 2, 1⟩

/-- One lot of capacity 2 with both spots Occupied. -/
def dbO2 : DB := ⟨[⟨1, ['L'], ['A'], ['P'], 60, 2⟩],
  [⟨1, 1, ['S', '1'], 'O', some 1⟩, ⟨2, 1, ['S', '2'], 'O', some 2⟩], [], 2, 3, 1⟩

/-- An execution entirely inside app.py: lot of capacity 3; users 1, 2, 3
park; users 1 and 2 leave; the lot is resized to 1 (deleting spots S1 and
S2, keeping the occupied S3); user 3 leaves; the lot is resized back up. -/
def db0 : DB := ⟨[], [], [], 1, 1, 1⟩

def dbT1 : DB := create_parking_lot db0 ['L'] ['A'] ['P'] 60 3

def dbT2 : DB := (reserve_spot dbT1 1 1 ['V'] 0).2

def dbT3 : DB := (reserve_spot dbT2 2 1 ['V'] 0).2

def dbT4 : DB := (reserve_spot dbT3 3 1 ['V'] 0).2

def dbT5 : DB := (release_spot_A dbT4 1 1 3600).2

def dbT6 : DB := (release_spot_A dbT5 2 2 3600).2

def dbT7 : DB := (edit_parking_lot_A dbT6 1 ['L'] ['A'] ['P'] 60 1).2

def dbT8 : DB := (release_spot_A dbT7 3 3 7200).2

def dbT9 : DB := (edit_parking_lot_A dbT8 1 ['L'] ['A'] ['P'] 60 2).2

instance : IsTotal Parking_spot
    (fun a b => get_spot_number a.spot_number ≤ get_spot_number b.spot_number) :=
  ⟨fun _ _ => le_total _ _⟩

instance : IsTrans Parking_spot
    (fun a b => get_spot_number a.spot_number ≤ get_spot_number b.spot_number) :=
  ⟨fun _ _ _ hab hbc => le_trans hab hbc⟩

/-- The new (1-based) position a spot receives in the renumbering pass:
one plus the index of its primary key in the sorted-by-number order. -/
def renumIdx (base : List Parking_spot) (L : ℕ) (s : Parking_spot) : ℕ :=
  ((sortByNum (base.filter (fun u => u.parking_lot_id == L))).map (fun u => u.id)).findIdx
    (fun j => j == s.id) + 1

/- ### Theorems -/

theorem natCharsRec_eq : ∀ (fuel n : ℕ), n ≤ fuel →
    natCharsRec (fuel + 1) n =
      if n = 0 then ['0'] else ((Nat.digits 10 n).reverse.map digitChar) := by
  intro fuel
  induction fuel with
  | zero =>
    intro n hn
    interval_cases n
    decide
  | succ fuel ih =>
    intro n hn
    show (if n < 10 then [digitChar n]
      else natCharsRec (fuel + 1) (n / 10) ++ [digitChar (n % 10)]) = _
    by_cases hsmall : n < 10
    · rw [if_pos hsmall]
      by_cases h0 : n = 0
      · subst h0; decide
      · rw [if_neg h0]
        rw [Nat.digits_def' (by norm_num : 1 < 10) (Nat.pos_iff_ne_zero.mpr h0)]
        rw [Nat.div_eq_of_lt hsmall, Nat.digits_zero]
        rw [Nat.mod_eq_of_lt hsmall]
        rfl
    · rw [if_neg hsmall]
      push_neg at hsmall
      have h0 : n ≠ 0 := by omega
      have hq : n / 10 ≤ fuel := by
        have : n / 10 < n := Nat.div_lt_self (by omega) (by norm_num)
        omega
      have hq0 : n / 10 ≠ 0 := by
        have := Nat.le_div_iff_mul_le (k := 10) (by norm_num) |>.mpr (by omega : 1 * 10 ≤ n)
        omega
      rw [ih (n / 10) hq, if_neg hq0, if_neg h0]
      rw [Nat.digits_def' (by norm_num : 1 < 10) (Nat.pos_iff_ne_zero.mpr h0)]
      simp [List.reverse_cons]

theorem natChars_eq (n : ℕ) :
    natChars n = if n = 0 then ['0'] else ((Nat.digits 10 n).reverse.map digitChar) :=
  natCharsRec_eq n n le_rfl

/- ### Basic facts about the digit characters and parsing -/
theorem digitChar_facts : ∀ d : ℕ, d < 10 →
    (digitChar d).isDigit = true ∧ (digitChar d).toNat - 48 = d ∧
    (digitChar d == 'S') = false ∧ pyUpper (digitChar d) = digitChar d ∧
    ¬ digitChar d = '-' ∧ ¬ digitChar d = '+' := by decide

theorem pyFloor_nonneg {q : ℚ} (h : 0 ≤ q) : 0 ≤ pyFloor q := by
  exact Int.fdiv_nonneg (Rat.num_nonneg.mpr h) (by positivity)

theorem roundHalfEven_nonneg {x : ℚ} (h : 0 ≤ x) : 0 ≤ roundHalfEven x := by
  have hf : 0 ≤ pyFloor x := pyFloor_nonneg h
  unfold roundHalfEven
  dsimp only
  split
  · exact hf
  · split
    · omega
    · split
      · exact hf
      · omega

theorem pyRound2_nonneg {q : ℚ} (h : 0 ≤ q) : 0 ≤ pyRound2 q := by
  have := roundHalfEven_nonneg (x := q * 100) (by positivity)
  unfold pyRound2
  positivity

/- ### The encode/decode round trip -/
theorem foldl_digitChar (l : List ℕ) (hl : ∀ d ∈ l, d < 10) (a : ℕ) :
    List.foldl (fun a d => 10 * a + ((digitChar d).toNat - 48)) a l
      = List.foldl (fun a d => 10 * a + d) a l := by
  induction l generalizing a with
  | nil => rfl
  | cons d tl ih =>
    simp only [List.foldl_cons]
    rw [(digitChar_facts d (hl d (by simp))).2.1]
    exact ih (fun x hx => hl x (by simp [hx])) _

theorem foldr_eq_ofDigits (l : List ℕ) :
    List.foldr (fun d a => 10 * a + d) 0 l = Nat.ofDigits 10 l := by
  induction l with
  | nil => simp [Nat.ofDigits_nil]
  | cons d tl ih => simp only [List.foldr_cons, Nat.ofDigits_cons, ih]; ring

theorem decDigits?_natChars (n : ℕ) : decDigits? (natChars n) = some n := by
  rcases Nat.eq_zero_or_pos n with h0 | hpos
  · subst h0; decide
  · have hzero : n ≠ 0 := Nat.pos_iff_ne_zero.mp hpos
    have hds : ∀ d ∈ Nat.digits 10 n, d < 10 := fun d hd => Nat.digits_lt_base (by norm_num) hd
    have hne : Nat.digits 10 n ≠ [] := Nat.digits_ne_nil_iff_ne_zero.mpr hzero
    rw [natChars_eq, if_neg hzero]
    unfold decDigits?
    rw [if_pos]
    · congr 1
      rw [List.foldl_map]
      rw [foldl_digitChar _ (fun d hd => hds d (List.mem_reverse.mp hd))]
      rw [List.foldl_reverse]
      rw [foldr_eq_ofDigits]
      exact Nat.ofDigits_digits 10 n
    · constructor
      · simp [hne]
      · rw [List.all_eq_true]
        intro c hc
        rcases List.mem_map.mp hc with ⟨d, hd, rfl⟩
        exact (digitChar_facts d (hds d (List.mem_reverse.mp hd))).1

theorem natChars_mem {n : ℕ} {c : Char} (hc : c ∈ natChars n) :
    ∃ d, d < 10 ∧ c = digitChar d := by
  rw [natChars_eq] at hc
  split at hc
  · refine ⟨0, by norm_num, ?_⟩
    simpa [digitChar] using List.mem_singleton.mp hc
  · rcases List.mem_map.mp hc with ⟨d, hd, rfl⟩
    exact ⟨d, Nat.digits_lt_base (by norm_num) (List.mem_reverse.mp hd), rfl⟩

theorem natChars_ne_nil (n : ℕ) : natChars n ≠ [] := by
  rw [natChars_eq]
  split
  · simp
  · simp [Nat.digits_ne_nil_iff_ne_zero.mpr (by assumption)]

theorem stripS_natChars (n : ℕ) : stripS (natChars n) = natChars n := by
  unfold stripS
  have hmap : (natChars n).map pyUpper = natChars n := by
    have : (natChars n).map pyUpper = (natChars n).map id := by
      apply List.map_congr_left
      intro c hc
      rcases natChars_mem hc with ⟨d, hd, rfl⟩
      exact (digitChar_facts d hd).2.2.2.1
    rw [this, List.map_id]
  rw [hmap]
  apply List.filter_eq_self.mpr
  intro c hc
  rcases natChars_mem hc with ⟨d, hd, rfl⟩
  rw [(digitChar_facts d hd).2.2.1]
  rfl

theorem head_natChars_not_sign (n : ℕ) :
    (natChars n).head? ≠ some '-' ∧ (natChars n).head? ≠ some '+' := by
  rcases hh : (natChars n).head? with _ | c
  · simp
  · have hc : c ∈ natChars n := by
      cases hcl : natChars n with
      | nil => simp [hcl] at hh
      | cons a l => rw [hcl] at hh; simp at hh; simp [hcl, hh]
    rcases natChars_mem hc with ⟨d, hd, rfl⟩
    have h1 := (digitChar_facts d hd).2.2.2.2.1
    have h2 := (digitChar_facts d hd).2.2.2.2.2
    constructor <;> simp [h1, h2]

theorem pyInt?_natChars (n : ℕ) : pyInt? (natChars n) = some (n : ℤ) := by
  unfold pyInt?
  rw [if_neg (head_natChars_not_sign n).1, if_neg (head_natChars_not_sign n).2]
  rw [decDigits?_natChars]
  rfl

theorem parseSpotNum?_format (z : ℤ) :
    parseSpotNum? (format_spot_number_int z) = some z := by
  unfold parseSpotNum? format_spot_number_int
  rcases lt_or_le z 0 with hneg | hpos
  · unfold intChars
    rw [if_pos hneg]
    unfold stripS
    simp only [List.map_cons]
    have hS : pyUpper 'S' = 'S' := by decide
    have hm : pyUpper '-' = '-' := by decide
    rw [hS, hm]
    rw [List.filter_cons_of_neg (by decide), List.filter_cons_of_pos (by decide)]
    have := stripS_natChars z.natAbs
    unfold stripS at this
    rw [this]
    unfold pyInt?
    rw [if_pos (by simp)]
    simp only [List.tail_cons]
    rw [decDigits?_natChars]
    show some (-(z.natAbs : ℤ)) = some z
    congr 1
    omega
  · unfold intChars
    rw [if_neg (by omega)]
    unfold stripS
    simp only [List.map_cons]
    have hS : pyUpper 'S' = 'S' := by decide
    rw [hS]
    rw [List.filter_cons_of_neg (by decide)]
    have := stripS_natChars z.toNat
    unfold stripS at this
    rw [this]
    rw [pyInt?_natChars]
    congr 1
    omega

theorem get_spot_number_format (z : ℤ) :
    get_spot_number (format_spot_number_int z) = z := by
  unfold get_spot_number
  rw [parseSpotNum?_format]
  rfl

theorem format_str_format_int (z : ℤ) :
    format_spot_number_str (format_spot_number_int z) = format_spot_number_int z := by
  unfold format_spot_number_str
  rw [parseSpotNum?_format]
  rfl

theorem parseSpotNum?_format_str (s : List Char) :
    parseSpotNum? (format_spot_number_str s) = parseSpotNum? s := by
  unfold format_spot_number_str
  cases hp : parseSpotNum? s with
  | some n =>
    exact parseSpotNum?_format n
  | none =>
    show parseSpotNum? ('S' :: s) = none
    unfold parseSpotNum? stripS
    simp only [List.map_cons]
    rw [show pyUpper 'S' = 'S' from by decide]
    rw [List.filter_cons_of_neg (by decide)]
    unfold parseSpotNum? stripS at hp
    exact hp

/- ### General lemmas about the operations -/
theorem eq_of_nodup_map_id {l : List Parking_spot}
    (hn : (l.map (fun s => s.id)).Nodup) {a b : Parking_spot}
    (ha : a ∈ l) (hb : b ∈ l) (hid : a.id = b.id) : a = b := by
  rcases List.mem_iff_get.mp ha with ⟨i, rfl⟩
  rcases List.mem_iff_get.mp hb with ⟨j, rfl⟩
  have hi : (l.map (fun s => s.id))[(i : ℕ)] = (l.map (fun s => s.id))[(j : ℕ)] := by
    rw [List.getElem_map, List.getElem_map]
    exact hid
  have := (List.Nodup.getElem_inj_iff hn).mp hi
  simp only [List.get_eq_getElem]
  congr 1

theorem reserve_spot_alreadyParked {db : DB} {u : ℕ} (L : ℕ) (v : List Char) (now : ℤ)
    (h : (activeBookingFor db u).isSome) :
    reserve_spot db u L v now = (.alreadyParked, db) := by
  cases hab : activeBookingFor db u with
  | some b => simp [reserve_spot, hab]
  | none => rw [hab] at h; simp at h

theorem reserve_spot_lotFull {db : DB} {u L : ℕ} {lot : Parking_lot} (v : List Char) (now : ℤ)
    (h1 : activeBookingFor db u = none) (h2 : findLot db L = some lot)
    (h3 : firstAvailable db L = none) :
    reserve_spot db u L v now = (.lotFull, db) := by
  simp [reserve_spot, h1, h2, h3]

theorem reserve_spot_success {db : DB} {u L : ℕ} {lot : Parking_lot} {sp : Parking_spot}
    (v : List Char) (now : ℤ)
    (h1 : activeBookingFor db u = none) (h2 : findLot db L = some lot)
    (h3 : firstAvailable db L = some sp) :
    reserve_spot db u L v now =
      (.reserved sp.id db.next_booking_id,
       { db with
         spots := db.spots.map (fun s =>
           if s.id == sp.id then { s with status := 'O', user_id := some u } else s),
         bookings := db.bookings ++
           [{ id := db.next_booking_id, user_id := u, parking_lot_id := lot.id,
              parking_spot_id := sp.id, vehicle_number := v, in_time := now,
              out_time := none, cost := none }],
         next_booking_id := db.next_booking_id + 1 }) := by
  simp [reserve_spot, h1, h2, h3]

theorem release_spot_A_success {db : DB} {bid u : ℕ} {b : Booking} {lot : Parking_lot}
    (now : ℤ)
    (hb : findBooking db bid = some b) (hu : b.user_id = u)
    (hl : findLot db b.parking_lot_id = some lot) :
    release_spot_A db bid u now =
      (.success,
       { db with
         bookings := db.bookings.map (fun x =>
           if x.id == bid then
             { x with
               out_time := some now,
               cost := some (pyRound2 (max 0 (((now - b.in_time : ℤ) : ℚ) / 3600) * lot.price_per_hour)) }
           else x),
         spots := db.spots.map (fun s =>
           if s.id == b.parking_spot_id then { s with status := 'A', user_id := none } else s) }) := by
  simp [release_spot_A, hb, hu, hl]

theorem release_spot_C_success {db : DB} {bid u : ℕ} {b : Booking} {lot : Parking_lot}
    (now : ℤ)
    (hb : findBooking db bid = some b) (hu : b.user_id = u)
    (hl : findLot db b.parking_lot_id = some lot) :
    release_spot_C db bid u now =
      (.success,
       { db with
         bookings := db.bookings.map (fun x =>
           if x.id == bid then
             { x with
               out_time := some now,
               cost := some (pyRound2 ((((now - b.in_time : ℤ) : ℚ) / 3600) * lot.price_per_hour)) }
           else x),
         spots := db.spots.map (fun s =>
           if s.id == b.parking_spot_id then { s with status := 'A', user_id := none } else s) }) := by
  simp [release_spot_C, hb, hu, hl]

theorem edit_parking_lot_C_capacityBelow {db : DB} {L : ℕ} {lot : Parking_lot}
    (name address pincode : List Char) (price : ℚ) {new_max : ℕ}
    (h2 : findLot db L = some lot) (hlt : new_max < occupiedCount db L) :
    edit_parking_lot_C db L name address pincode price new_max = (.capacityBelowOccupancy, db) := by
  simp [edit_parking_lot_C, h2, hlt]

theorem edit_parking_lot_A_capacityBelow {db : DB} {L : ℕ} {lot : Parking_lot}
    (name address pincode : List Char) (price : ℚ) {new_max : ℕ}
    (h2 : findLot db L = some lot) (h1 : 1 ≤ new_max) (hlt : new_max < occupiedCount db L) :
    edit_parking_lot_A db L name address pincode price new_max = (.capacityBelowOccupancy, db) := by
  simp [edit_parking_lot_A, h2, hlt, Nat.not_lt.mpr h1]

theorem edit_parking_lot_A_invalid {db : DB} {L : ℕ} {lot : Parking_lot}
    (name address pincode : List Char) (price : ℚ) {new_max : ℕ}
    (h2 : findLot db L = some lot) (h1 : new_max < 1) :
    edit_parking_lot_A db L name address pincode price new_max = (.invalidCapacity, db) := by
  simp [edit_parking_lot_A, h2, h1]

/- ### Integer-valued rationals round to themselves -/
theorem pyFloor_intCast (w : ℤ) : pyFloor ((w : ℤ) : ℚ) = w := by
  unfold pyFloor
  rw [Rat.intCast_num, Rat.intCast_den]
  simp

theorem roundHalfEven_intCast (w : ℤ) : roundHalfEven ((w : ℤ) : ℚ) = w := by
  unfold roundHalfEven
  rw [pyFloor_intCast]
  rw [if_pos (by norm_num)]

theorem pyRound2_intCast (z : ℤ) : pyRound2 ((z : ℤ) : ℚ) = ((z : ℤ) : ℚ) := by
  unfold pyRound2
  have h : ((z : ℤ) : ℚ) * 100 = (((z * 100 : ℤ) : ℤ) : ℚ) := by push_cast; ring
  rw [h, roundHalfEven_intCast]
  push_cast
  field_simp

/- ### The claims -/
theorem get_spot_number_lower_s (n : ℕ) :
    get_spot_number ('s' :: natChars n) = (n : ℤ) := by
  unfold get_spot_number parseSpotNum? stripS
  simp only [List.map_cons]
  rw [show pyUpper 's' = 'S' from by decide]
  rw [List.filter_cons_of_neg (by decide)]
  have h := stripS_natChars n
  unfold stripS at h
  rw [h, pyInt?_natChars]
  rfl

/-- Claim C8: for every integer n ≥ 1 the decoder inverts the encoder —
`get_spot_number` applied to a spot numbered `format_spot_number(n)` equals
n — and decoding is case-insensitive on the `S` tag: an identifier written
with a lowercase `s` decodes to the same ordinal. -/
theorem claim_C8 (n : ℕ) (h : 1 ≤ n) :
    get_spot_number (format_spot_number_int (n : ℤ)) = (n : ℤ) ∧
    get_spot_number ('s' :: natChars n) = (n : ℤ) :=
  ⟨get_spot_number_format (n : ℤ), get_spot_number_lower_s n⟩

theorem claim_C8_witness :
    1 ≤ 12 ∧
    (get_spot_number (format_spot_number_int ((12 : ℕ) : ℤ)) = ((12 : ℕ) : ℤ) ∧
     get_spot_number ('s' :: natChars 12) = ((12 : ℕ) : ℤ)) :=
  ⟨by decide, claim_C8 12 (by decide)⟩

/-- Claim C9 fails on the code: `format_spot_number` does not zero-pad, so
the encoding of 10 sorts lexicographically before the encoding of 2 even
though 2 < 10, contradicting both the claimed order-preservation contract
and the function's own docstring ("ensure consistent lexicographical
ordering").  This theorem evaluates the code at the failing input
m = 2, n = 10 (both < 10^6). -/
theorem claim_C9 :
    2 < 10 ∧
    pyStrLt (format_spot_number_int 2) (format_spot_number_int 10) = false ∧
    pyStrLt (format_spot_number_int 10) (format_spot_number_int 2) = true := by
  decide

/-- Claim C10: a user who already has an active booking gets AlreadyParked
from Reserve with no state change, for every requested lot id — the
active-booking check precedes the lot lookup, so even a nonexistent lot
yields AlreadyParked rather than NotFound. -/
theorem claim_C10 (db : DB) (u L : ℕ) (v : List Char) (now : ℤ)
    (h : (activeBookingFor db u).isSome) :
    reserve_spot db u L v now = (.alreadyParked, db) :=
  reserve_spot_alreadyParked L v now h

theorem claim_C10_witness :
    ((activeBookingFor dbW 1).isSome ∧ findLot dbW 999 = none) ∧
    reserve_spot dbW 1 999 ['V'] 5 = (.alreadyParked, dbW) :=
  ⟨by decide, claim_C10 dbW 1 999 ['V'] 5 (by decide)⟩

/-- Claim C3 as stated fails on app.py: with one Occupied spot and target
capacity 0 (which is strictly below the occupancy), app.py's
`edit_parking_lot` rejects with its `new_max_spots < 1` message
(InvalidCapacity), not CapacityBelowOccupancy — though it still performs no
mutation. -/
theorem claim_C3_counterexample :
    0 < occupiedCount dbW 1 ∧
    (edit_parking_lot_A dbW 1 ['L'] ['A'] ['P'] 60 0).1 ≠ .capacityBelowOccupancy ∧
    (edit_parking_lot_A dbW 1 ['L'] ['A'] ['P'] 60 0).1 = .invalidCapacity ∧
    (edit_parking_lot_A dbW 1 ['L'] ['A'] ['P'] 60 0).2 = dbW := by
  decide

/-- Claim C3 (amended): when the target capacity is strictly below the
number of Occupied spots, `edit_parking_lot` fails and performs no
mutation; the failure is CapacityBelowOccupancy in controllers.py for every
such target, and in app.py for targets ≥ 1, while app.py reports its
at-least-1-spot error (InvalidCapacity) for target 0. -/
theorem claim_C3 :
    (∀ (db : DB) (L : ℕ) (lot : Parking_lot) (n a p : List Char) (pr : ℚ) (new_max : ℕ),
      findLot db L = some lot → new_max < occupiedCount db L →
      edit_parking_lot_C db L n a p pr new_max = (.capacityBelowOccupancy, db)) ∧
    (∀ (db : DB) (L : ℕ) (lot : Parking_lot) (n a p : List Char) (pr : ℚ) (new_max : ℕ),
      findLot db L = some lot → 1 ≤ new_max → new_max < occupiedCount db L →
      edit_parking_lot_A db L n a p pr new_max = (.capacityBelowOccupancy, db)) ∧
    (∀ (db : DB) (L : ℕ) (lot : Parking_lot) (n a p : List Char) (pr : ℚ),
      findLot db L = some lot →
      edit_parking_lot_A db L n a p pr 0 = (.invalidCapacity, db)) :=
  ⟨fun _ _ _ n a p pr _ h2 hlt => edit_parking_lot_C_capacityBelow n a p pr h2 hlt,
   fun _ _ _ n a p pr _ h2 h1 hlt => edit_parking_lot_A_capacityBelow n a p pr h2 h1 hlt,
   fun _ _ _ n a p pr h2 => edit_parking_lot_A_invalid n a p pr h2 (by norm_num)⟩

theorem claim_C3_witness :
    (findLot dbO2 1 = some ⟨1, ['L'], ['A'], ['P'], 60, 2⟩ ∧ occupiedCount dbO2 1 = 2) ∧
    edit_parking_lot_C dbO2 1 ['L'] ['A'] ['P'] 60 1 = (.capacityBelowOccupancy, dbO2) ∧
    edit_parking_lot_A dbO2 1 ['L'] ['A'] ['P'] 60 1 = (.capacityBelowOccupancy, dbO2) ∧
    edit_parking_lot_A dbO2 1 ['L'] ['A'] ['P'] 60 0 = (.invalidCapacity, dbO2) :=
  ⟨by decide,
   claim_C3.1 dbO2 1 ⟨1, ['L'], ['A'], ['P'], 60, 2⟩ ['L'] ['A'] ['P'] 60 1 (by decide) (by decide),
   claim_C3.2.1 dbO2 1 ⟨1, ['L'], ['A'], ['P'], 60, 2⟩ ['L'] ['A'] ['P'] 60 1 (by decide) (by decide) (by decide),
   claim_C3.2.2 dbO2 1 ⟨1, ['L'], ['A'], ['P'], 60, 2⟩ ['L'] ['A'] ['P'] 60 (by decide)⟩

theorem renumberSpots_mem {spots : List Parking_spot} {L : ℕ} {t : Parking_spot}
    (ht : t ∈ spots) :
    ∃ s' ∈ renumberSpots spots L,
      s'.id = t.id ∧ s'.status = t.status ∧ s'.user_id = t.user_id := by
  unfold renumberSpots
  refine ⟨_, List.mem_map_of_mem _ ht, ?_⟩
  dsimp only
  split
  · exact ⟨rfl, rfl, rfl⟩
  · exact ⟨rfl, rfl, rfl⟩

theorem normalizeLotSpots_mem {db : DB} (L : ℕ) {t : Parking_spot}
    (ht : t ∈ db.spots) :
    ∃ u' ∈ normalizeLotSpots db L,
      u'.id = t.id ∧ u'.status = t.status ∧ u'.user_id = t.user_id := by
  unfold normalizeLotSpots
  refine ⟨_, List.mem_map_of_mem _ ht, ?_⟩
  dsimp only
  split
  · exact ⟨rfl, rfl, rfl⟩
  · exact ⟨rfl, rfl, rfl⟩

theorem contains_eq_false_of_not_mem {l : List ℕ} {a : ℕ} (h : a ∉ l) :
    l.contains a = false := by
  by_contra hch
  rw [Bool.not_eq_false] at hch
  exact h (by simpa using hch)

theorem not_mem_removeIds_C {db : DB} {L : ℕ}
    (hids : (db.spots.map (fun t => t.id)).Nodup)
    {s : Parking_spot} (hs : s ∈ db.spots) (hA : ¬ s.status = 'A') (k : ℕ) :
    s.id ∉ ((sortByNumDesc ((sortByNum (spotsOfLot db L)).filter
      (fun t => t.status == 'A'))).take k).map (fun t => t.id) := by
  intro hmem
  rcases List.mem_map.mp hmem with ⟨t, htk, htid⟩
  have h1 : t ∈ sortByNumDesc ((sortByNum (spotsOfLot db L)).filter (fun t => t.status == 'A')) :=
    List.mem_of_mem_take htk
  have h2 : t ∈ (sortByNum (spotsOfLot db L)).filter (fun t => t.status == 'A') :=
    (List.perm_insertionSort _ _).mem_iff.mp h1
  have h3 := List.mem_filter.mp h2
  have h4 : t ∈ spotsOfLot db L := (List.perm_insertionSort _ _).mem_iff.mp h3.1
  have h5 : t ∈ db.spots := (List.mem_filter.mp h4).1
  have h6 : t = s := eq_of_nodup_map_id hids h5 hs htid
  apply hA
  rw [← h6]
  simpa using h3.2

theorem not_mem_removeIds_A {db : DB} {L : ℕ}
    (hids : (db.spots.map (fun t => t.id)).Nodup)
    {s : Parking_spot} (hs : s ∈ db.spots) (hA : ¬ s.status = 'A') (k : ℕ) :
    s.id ∉ ((sortByKeyADesc (db.spots.filter
      (fun t => t.parking_lot_id == L && t.status == 'A'))).take k).map (fun t => t.id) := by
  intro hmem
  rcases List.mem_map.mp hmem with ⟨t, htk, htid⟩
  have h1 : t ∈ sortByKeyADesc (db.spots.filter (fun t => t.parking_lot_id == L && t.status == 'A')) :=
    List.mem_of_mem_take htk
  have h2 : t ∈ db.spots.filter (fun t => t.parking_lot_id == L && t.status == 'A') :=
    (List.perm_insertionSort _ _).mem_iff.mp h1
  have h3 := List.mem_filter.mp h2
  have h6 : t = s := eq_of_nodup_map_id hids h3.1 hs htid
  apply hA
  rw [← h6]
  have := h3.2
  simp only [Bool.and_eq_true, beq_iff_eq] at this
  exact this.2

set_option maxHeartbeats 1000000 in
theorem editC_occupied_survives (db : DB) (L : ℕ) (n a p : List Char) (pr : ℚ)
    (new_max : ℕ) (hids : (db.spots.map (fun t => t.id)).Nodup)
    {s : Parking_spot} (hs : s ∈ db.spots) (hA : ¬ s.status = 'A') :
    ∃ s' ∈ (edit_parking_lot_C db L n a p pr new_max).2.spots,
      s'.id = s.id ∧ s'.status = s.status ∧ s'.user_id = s.user_id := by
  unfold edit_parking_lot_C
  cases hfl : findLot db L with
  | none => exact ⟨s, hs, rfl, rfl, rfl⟩
  | some lot =>
    dsimp only
    by_cases hc : new_max < occupiedCount db L
    · rw [if_pos hc]
      exact ⟨s, hs, rfl, rfl, rfl⟩
    · rw [if_neg hc]
      dsimp only
      split
      · -- grow branch
        rcases normalizeLotSpots_mem L hs with ⟨t, htm, htid, hts, htu⟩
        rcases renumberSpots_mem (L := L)
          (List.mem_append_left (growSpots db L lot.max_no_spots new_max) htm) with
          ⟨s', hsm, hsid, hss, hsu⟩
        exact ⟨s', hsm, by rw [hsid, htid], by rw [hss, hts], by rw [hsu, htu]⟩
      · split
        · -- shrink branch
          split
          · -- deletions happen
            have hsurv : s ∈ db.spots.filter (fun t =>
                !(((sortByNumDesc ((sortByNum (spotsOfLot db L)).filter
                  (fun t => t.status == 'A'))).take
                    (((sortByNum (spotsOfLot db L)).filter (fun t => t.status == 'A')).length -
                      (new_max - ((sortByNum (spotsOfLot db L)).filter
                        (fun t => t.status == 'O')).length))).map (fun t => t.id)).contains t.id) := by
              rw [List.mem_filter]
              refine ⟨hs, ?_⟩
              rw [contains_eq_false_of_not_mem (not_mem_removeIds_C hids hs hA _)]
              rfl
            rcases renumberSpots_mem (L := L) hsurv with ⟨s', hsm, hsid, hss, hsu⟩
            refine ⟨s', ?_, hsid, hss, hsu⟩
            exact hsm
          · -- all Available spots kept
            rcases renumberSpots_mem (L := L) hs with ⟨s', hsm, hsid, hss, hsu⟩
            refine ⟨s', ?_, hsid, hss, hsu⟩
            exact hsm
        · -- equal capacity
          rcases renumberSpots_mem (L := L) hs with ⟨s', hsm, hsid, hss, hsu⟩
          refine ⟨s', ?_, hsid, hss, hsu⟩
          exact hsm

theorem editA_occupied_survives (db : DB) (L : ℕ) (n a p : List Char) (pr : ℚ)
    (new_max : ℕ) (hids : (db.spots.map (fun t => t.id)).Nodup)
    {s : Parking_spot} (hs : s ∈ db.spots) (hA : ¬ s.status = 'A') :
    ∃ s' ∈ (edit_parking_lot_A db L n a p pr new_max).2.spots,
      s'.id = s.id ∧ s'.status = s.status ∧ s'.user_id = s.user_id := by
  unfold edit_parking_lot_A
  cases hfl : findLot db L with
  | none => exact ⟨s, hs, rfl, rfl, rfl⟩
  | some lot =>
    dsimp only
    by_cases h1 : new_max < 1
    · rw [if_pos h1]
      exact ⟨s, hs, rfl, rfl, rfl⟩
    · rw [if_neg h1]
      by_cases hc : new_max < occupiedCount db L
      · rw [if_pos hc]
        exact ⟨s, hs, rfl, rfl, rfl⟩
      · rw [if_neg hc]
        split
        · exact ⟨s, List.mem_append_left _ hs, rfl, rfl, rfl⟩
        · split
          · split
            · refine ⟨s, ?_, rfl, rfl, rfl⟩
              rw [List.mem_filter]
              refine ⟨hs, ?_⟩
              rw [contains_eq_false_of_not_mem (not_mem_removeIds_A hids hs hA _)]
              rfl
            · exact ⟨s, hs, rfl, rfl, rfl⟩
          · exact ⟨s, hs, rfl, rfl, rfl⟩

theorem findIdx_map_self : ∀ (l : List Parking_spot),
    (l.map (fun s => s.id)).Nodup →
    l.map (fun s => (l.map (fun s => s.id)).findIdx (fun j => j == s.id)) =
      List.range l.length := by
  intro l
  induction l with
  | nil => intro _; rfl
  | cons x xs ih =>
    intro hn
    have hn' : (x.id :: xs.map (fun s => s.id)).Nodup := by simpa using hn
    have hx : x.id ∉ xs.map (fun s => s.id) := (List.nodup_cons.mp hn').1
    have hxs : (xs.map (fun s => s.id)).Nodup := (List.nodup_cons.mp hn').2
    simp only [List.map_cons, List.length_cons]
    rw [List.range_succ_eq_map]
    congr 1
    · rw [List.findIdx_cons]
      simp
    · have hcongr : xs.map (fun s =>
          (x.id :: xs.map (fun s => s.id)).findIdx (fun j => j == s.id)) =
          xs.map (fun s =>
            ((xs.map (fun s => s.id)).findIdx (fun j => j == s.id)) + 1) := by
        apply List.map_congr_left
        intro s hs
        rw [List.findIdx_cons]
        have : (x.id == s.id) = false := by
          rw [beq_eq_false_iff_ne]
          intro hxe
          exact hx (hxe ▸ List.mem_map_of_mem _ hs)
        rw [this]
        rfl
      rw [hcongr]
      have : xs.map (fun s =>
          ((xs.map (fun s => s.id)).findIdx (fun j => j == s.id)) + 1) =
          (xs.map (fun s =>
            (xs.map (fun s => s.id)).findIdx (fun j => j == s.id))).map Nat.succ := by
        rw [List.map_map]
        rfl
      rw [this, ih hxs]

theorem findIdx_of_get {l : List Parking_spot}
    (hn : (l.map (fun s => s.id)).Nodup) (i : Fin l.length) :
    (l.map (fun s => s.id)).findIdx (fun j => j == (l.get i).id) = (i : ℕ) := by
  have hi : (i : ℕ) < (l.map (fun s => s.id)).length := by
    rw [List.length_map]; exact i.isLt
  rw [List.findIdx_eq hi]
  constructor
  · rw [List.getElem_map]
    simp [List.get_eq_getElem]
  · intro j hji
    have hj : j < (l.map (fun s => s.id)).length := lt_trans hji hi
    rw [List.getElem_map]
    rw [Bool.eq_false_iff]
    intro hbeq
    have heq : l[j].id = (l.get i).id := by simpa using hbeq
    have : (l.map (fun s => s.id))[j] = (l.map (fun s => s.id))[(i : ℕ)] := by
      rw [List.getElem_map, List.getElem_map]
      simpa [List.get_eq_getElem] using heq
    have := (List.Nodup.getElem_inj_iff hn).mp this
    omega

theorem sorted_findIdx_lt {l : List Parking_spot}
    (hsort : List.Pairwise
      (fun a b => get_spot_number a.spot_number ≤ get_spot_number b.spot_number) l)
    (hn : (l.map (fun s => s.id)).Nodup) {s t : Parking_spot}
    (hsl : s ∈ l) (htl : t ∈ l)
    (hlt : get_spot_number s.spot_number < get_spot_number t.spot_number) :
    (l.map (fun u => u.id)).findIdx (fun j => j == s.id) <
      (l.map (fun u => u.id)).findIdx (fun j => j == t.id) := by
  rcases List.mem_iff_get.mp hsl with ⟨i, hi⟩
  rcases List.mem_iff_get.mp htl with ⟨k, hk⟩
  rw [← hi, ← hk, findIdx_of_get hn i, findIdx_of_get hn k]
  by_contra hle
  push_neg at hle
  rcases Nat.lt_or_ge (k : ℕ) (i : ℕ) with hki | hik
  · have := List.pairwise_iff_get.mp hsort k i hki
    rw [hi, hk] at this
    omega
  · have hik2 : (i : ℕ) = (k : ℕ) := le_antisymm hik hle
    have hfin : i = k := Fin.ext hik2
    subst hfin
    have hst : s = t := hi.symm.trans hk
    rw [hst] at hlt
    omega

theorem renumber_filter (base : List Parking_spot) (L : ℕ) :
    (renumberSpots base L).filter (fun s => s.parking_lot_id == L) =
      (base.filter (fun s => s.parking_lot_id == L)).map (fun s =>
        { s with spot_number := format_spot_number_int ((renumIdx base L s : ℕ) : ℤ) }) := by
  unfold renumberSpots renumIdx
  dsimp only
  rw [List.filter_map]
  have hcong : ∀ x ∈ base,
      (((fun s => s.parking_lot_id == L) ∘ (fun s =>
        if s.parking_lot_id == L then
          { s with spot_number := format_spot_number_int (((((sortByNum (base.filter (fun u => u.parking_lot_id == L))).map (fun u => u.id)).findIdx (fun j => j == s.id)) + 1 : ℕ) : ℤ) }
        else s)) x) = (x.parking_lot_id == L) := by
    intro x _
    by_cases hx : x.parking_lot_id = L <;> simp [hx]
  rw [List.filter_congr hcong]
  apply List.map_congr_left
  intro x hx
  rw [if_pos (List.mem_filter.mp hx).2]

theorem renumber_perm (base : List Parking_spot) (L : ℕ)
    (hn : ((base.filter (fun s => s.parking_lot_id == L)).map (fun s => s.id)).Nodup) :
    (((renumberSpots base L).filter (fun s => s.parking_lot_id == L)).map
        (fun s => get_spot_number s.spot_number)).Perm
      ((List.range' 1 (base.filter (fun s => s.parking_lot_id == L)).length).map
        (fun (i : ℕ) => (i : ℤ))) := by
  rw [renumber_filter, List.map_map]
  have hperm : (sortByNum (base.filter (fun s => s.parking_lot_id == L))).Perm
      (base.filter (fun s => s.parking_lot_id == L)) := List.perm_insertionSort _ _
  have hnsorted : ((sortByNum (base.filter (fun s => s.parking_lot_id == L))).map
      (fun s => s.id)).Nodup := by
    exact (hperm.map (fun s => s.id)).symm.nodup hn
  have hfun : ∀ x ∈ base.filter (fun s => s.parking_lot_id == L),
      (((fun s => get_spot_number s.spot_number) ∘ (fun s =>
        { s with spot_number := format_spot_number_int ((renumIdx base L s : ℕ) : ℤ) })) x) =
      ((renumIdx base L x : ℕ) : ℤ) := by
    intro x _
    exact get_spot_number_format _
  rw [List.map_congr_left hfun]
  refine ((hperm.map _).symm).trans ?_
  have heq : (sortByNum (base.filter (fun u => u.parking_lot_id == L))).map
      (fun x => ((renumIdx base L x : ℕ) : ℤ)) =
      (List.range' 1 (base.filter (fun s => s.parking_lot_id == L)).length).map
        (fun (i : ℕ) => (i : ℤ)) := by
    have h3 : (sortByNum (base.filter (fun u => u.parking_lot_id == L))).map
        (fun x => ((renumIdx base L x : ℕ) : ℤ)) =
        ((sortByNum (base.filter (fun u => u.parking_lot_id == L))).map (fun x =>
          ((sortByNum (base.filter (fun u => u.parking_lot_id == L))).map
            (fun u => u.id)).findIdx (fun j => j == x.id))).map
          (fun k => ((k + 1 : ℕ) : ℤ)) := by
      rw [List.map_map]
      rfl
    rw [h3, findIdx_map_self _ hnsorted]
    have hlen : (sortByNum (base.filter (fun u => u.parking_lot_id == L))).length =
        (base.filter (fun s => s.parking_lot_id == L)).length := hperm.length_eq
    rw [hlen]
    rw [List.range'_eq_map_range, List.map_map]
    apply List.map_congr_left
    intro x _
    simp [Nat.add_comm]
  rw [heq]

theorem renumber_mono (base : List Parking_spot) (L : ℕ)
    (hn : ((base.filter (fun s => s.parking_lot_id == L)).map (fun s => s.id)).Nodup)
    {u w : Parking_spot}
    (hu : u ∈ base.filter (fun s => s.parking_lot_id == L))
    (hw : w ∈ base.filter (fun s => s.parking_lot_id == L))
    (hk : get_spot_number u.spot_number < get_spot_number w.spot_number) :
    renumIdx base L u < renumIdx base L w := by
  unfold renumIdx
  have hperm : (sortByNum (base.filter (fun s => s.parking_lot_id == L))).Perm
      (base.filter (fun s => s.parking_lot_id == L)) := List.perm_insertionSort _ _
  have hnsorted : ((sortByNum (base.filter (fun s => s.parking_lot_id == L))).map
      (fun s => s.id)).Nodup := (hperm.map (fun s => s.id)).symm.nodup hn
  have hsorted : List.Pairwise
      (fun a b => get_spot_number a.spot_number ≤ get_spot_number b.spot_number)
      (sortByNum (base.filter (fun s => s.parking_lot_id == L))) :=
    List.sorted_insertionSort _ _
  have h := sorted_findIdx_lt hsorted hnsorted
    (hperm.mem_iff.mpr hu) (hperm.mem_iff.mpr hw) hk
  omega

theorem grow_filter (db : DB) (L : ℕ) (old_max new_max : ℕ) :
    ((normalizeLotSpots db L ++ growSpots db L old_max new_max).filter
        (fun s => s.parking_lot_id == L)) =
      (spotsOfLot db L).map (fun u =>
        { u with spot_number := format_spot_number_str u.spot_number }) ++
      growSpots db L old_max new_max := by
  rw [List.filter_append]
  congr 1
  · unfold normalizeLotSpots spotsOfLot
    rw [List.filter_map]
    have hcong : ∀ x ∈ db.spots,
        (((fun s => s.parking_lot_id == L) ∘ (fun s =>
          if s.parking_lot_id == L then
            { s with spot_number := format_spot_number_str s.spot_number }
          else s)) x) = (x.parking_lot_id == L) := by
      intro x _
      by_cases hx : x.parking_lot_id = L <;> simp [hx]
    rw [List.filter_congr hcong]
    apply List.map_congr_left
    intro x hx
    rw [if_pos (List.mem_filter.mp hx).2]
  · apply List.filter_eq_self.mpr
    intro t ht
    unfold growSpots at ht
    rcases List.mem_map.mp ht with ⟨i, _, rfl⟩
    simp

theorem growSpots_length (db : DB) (L : ℕ) (old_max new_max : ℕ) :
    (growSpots db L old_max new_max).length = new_max - old_max := by
  unfold growSpots
  rw [List.length_map, List.length_range']

theorem growSpots_ids (db : DB) (L : ℕ) (old_max new_max : ℕ) :
    (growSpots db L old_max new_max).map (fun s => s.id) =
      (List.range' 1 (new_max - old_max)).map (fun i => db.next_spot_id + (i - 1)) := by
  unfold growSpots
  rw [List.map_map]
  rfl

theorem normalizeLotSpots_ids (db : DB) (L : ℕ) :
    (normalizeLotSpots db L).map (fun s => s.id) = db.spots.map (fun s => s.id) := by
  unfold normalizeLotSpots
  rw [List.map_map]
  apply List.map_congr_left
  intro x _
  by_cases hx : x.parking_lot_id = L <;> simp [hx]

theorem grow_append_ids_nodup (db : DB) (L : ℕ) (old_max new_max : ℕ)
    (hids : (db.spots.map (fun s => s.id)).Nodup)
    (hbound : ∀ s ∈ db.spots, s.id < db.next_spot_id) :
    (((normalizeLotSpots db L ++ growSpots db L old_max new_max).filter
      (fun s => s.parking_lot_id == L)).map (fun s => s.id)).Nodup := by
  have hall : ((normalizeLotSpots db L ++ growSpots db L old_max new_max).map
      (fun s => s.id)).Nodup := by
    rw [List.map_append, normalizeLotSpots_ids, growSpots_ids]
    apply List.Nodup.append hids
    · apply List.Nodup.map_on ?_ (List.nodup_range' _ _)
      intro a ha b hb hab
      have ha1 : 1 ≤ a := (List.mem_range'_1.mp ha).1
      have hb1 : 1 ≤ b := (List.mem_range'_1.mp hb).1
      omega
    · intro a ha hb
      rcases List.mem_map.mp ha with ⟨t, htm, rfl⟩
      rcases List.mem_map.mp hb with ⟨i, _, hia⟩
      have := hbound t htm
      omega
  exact (((List.filter_sublist _).map _).nodup) hall

theorem grow_key_eq (db : DB) (L : ℕ) (old_max new_max : ℕ)
    (hids : (db.spots.map (fun s => s.id)).Nodup)
    (hbound : ∀ s ∈ db.spots, s.id < db.next_spot_id)
    {u s : Parking_spot}
    (hu : u ∈ (normalizeLotSpots db L ++ growSpots db L old_max new_max).filter
      (fun t => t.parking_lot_id == L))
    (hs : s ∈ spotsOfLot db L) (hid : u.id = s.id) :
    get_spot_number u.spot_number = get_spot_number s.spot_number := by
  rw [grow_filter] at hu
  rcases List.mem_append.mp hu with hnorm | hgrow
  · rcases List.mem_map.mp hnorm with ⟨w, hw, rfl⟩
    have hw' : w ∈ db.spots := (List.mem_filter.mp hw).1
    have hs' : s ∈ db.spots := (List.mem_filter.mp hs).1
    have hws : w = s := eq_of_nodup_map_id hids hw' hs' hid
    subst hws
    show (parseSpotNum? (format_spot_number_str w.spot_number)).getD 0 = _
    rw [parseSpotNum?_format_str]
    rfl
  · unfold growSpots at hgrow
    rcases List.mem_map.mp hgrow with ⟨i, _, rfl⟩
    have hsb : s.id < db.next_spot_id := hbound s (List.mem_filter.mp hs).1
    dsimp only at hid
    omega

theorem shrink_filter (db : DB) (L : ℕ) (removeIds : List ℕ) :
    (db.spots.filter (fun s => !(removeIds.contains s.id))).filter
        (fun s => s.parking_lot_id == L) =
      (spotsOfLot db L).filter (fun s => !(removeIds.contains s.id)) := by
  unfold spotsOfLot
  rw [List.filter_filter, List.filter_filter]
  apply List.filter_congr
  intro x _
  exact Bool.and_comm _ _

theorem length_filter_contains {l : List Parking_spot} {ids : List ℕ}
    (hn : (l.map (fun s => s.id)).Nodup) (hin : ids.Nodup)
    (hsub : ∀ a ∈ ids, a ∈ l.map (fun s => s.id)) :
    (l.filter (fun s => ids.contains s.id)).length = ids.length := by
  have h1 : (l.filter (fun s => ids.contains s.id)).length =
      ((l.map (fun s => s.id)).filter (fun a => ids.contains a)).length := by
    rw [List.filter_map, List.length_map]
    rfl
  rw [h1]
  have h2 : ((l.map (fun s => s.id)).filter (fun a => ids.contains a)).Perm ids := by
    apply (List.perm_ext_iff_of_nodup (hn.filter _) hin).mpr
    intro a
    rw [List.mem_filter]
    constructor
    · rintro ⟨_, hc⟩
      simpa using hc
    · intro ha
      exact ⟨hsub a ha, by simpa using ha⟩
  exact h2.length_eq

theorem length_filter_not_contains {l : List Parking_spot} {ids : List ℕ}
    (hn : (l.map (fun s => s.id)).Nodup) (hin : ids.Nodup)
    (hsub : ∀ a ∈ ids, a ∈ l.map (fun s => s.id)) :
    (l.filter (fun s => !(ids.contains s.id))).length = l.length - ids.length := by
  have hsum := (List.filter_append_perm (fun s => ids.contains s.id) l).length_eq
  rw [List.length_append] at hsum
  have hc := length_filter_contains hn hin hsub
  omega

theorem removeIds_nodup (db : DB) (L : ℕ)
    (hids : (db.spots.map (fun s => s.id)).Nodup) (k : ℕ) :
    (((sortByNumDesc ((sortByNum (spotsOfLot db L)).filter
      (fun s => s.status == 'A'))).take k).map (fun s => s.id)).Nodup := by
  have n1 : ((spotsOfLot db L).map (fun s => s.id)).Nodup :=
    ((List.filter_sublist _).map _).nodup hids
  have p1 : (sortByNum (spotsOfLot db L)).Perm (spotsOfLot db L) :=
    List.perm_insertionSort _ _
  have n2 : ((sortByNum (spotsOfLot db L)).map (fun s => s.id)).Nodup :=
    (p1.map _).symm.nodup n1
  have n3 : (((sortByNum (spotsOfLot db L)).filter (fun s => s.status == 'A')).map
      (fun s => s.id)).Nodup := ((List.filter_sublist _).map _).nodup n2
  have p2 : (sortByNumDesc ((sortByNum (spotsOfLot db L)).filter
      (fun s => s.status == 'A'))).Perm ((sortByNum (spotsOfLot db L)).filter
      (fun s => s.status == 'A')) := List.perm_insertionSort _ _
  have n4 := (p2.map (fun s => s.id)).symm.nodup n3
  exact ((List.take_sublist _ _).map _).nodup n4

theorem removeIds_sub (db : DB) (L : ℕ) (k : ℕ) :
    ∀ a ∈ ((sortByNumDesc ((sortByNum (spotsOfLot db L)).filter
      (fun s => s.status == 'A'))).take k).map (fun s => s.id),
      a ∈ (spotsOfLot db L).map (fun s => s.id) := by
  intro a ha
  rcases List.mem_map.mp ha with ⟨t, ht, rfl⟩
  have h1 : t ∈ sortByNumDesc ((sortByNum (spotsOfLot db L)).filter
      (fun s => s.status == 'A')) := List.mem_of_mem_take ht
  have p2 : (sortByNumDesc ((sortByNum (spotsOfLot db L)).filter
      (fun s => s.status == 'A'))).Perm ((sortByNum (spotsOfLot db L)).filter
      (fun s => s.status == 'A')) := List.perm_insertionSort _ _
  have h2 := p2.mem_iff.mp h1
  have h3 : t ∈ sortByNum (spotsOfLot db L) := (List.mem_filter.mp h2).1
  have p1 : (sortByNum (spotsOfLot db L)).Perm (spotsOfLot db L) :=
    List.perm_insertionSort _ _
  exact List.mem_map_of_mem _ (p1.mem_iff.mp h3)

theorem occ_avail_split (db : DB) (L : ℕ)
    (hstat : ∀ s ∈ spotsOfLot db L, s.status = 'A' ∨ s.status = 'O') :
    ((sortByNum (spotsOfLot db L)).filter (fun s => s.status == 'A')).length +
      ((sortByNum (spotsOfLot db L)).filter (fun s => s.status == 'O')).length =
      (spotsOfLot db L).length := by
  have hp : (sortByNum (spotsOfLot db L)).Perm (spotsOfLot db L) :=
    List.perm_insertionSort _ _
  have hsum := (List.filter_append_perm (fun s => s.status == 'A')
    (sortByNum (spotsOfLot db L))).length_eq
  rw [List.length_append] at hsum
  have hcong : (sortByNum (spotsOfLot db L)).filter (fun s => !(s.status == 'A')) =
      (sortByNum (spotsOfLot db L)).filter (fun s => s.status == 'O') := by
    apply List.filter_congr
    intro x hx
    rcases hstat x (hp.mem_iff.mp hx) with hA | hO
    · rw [hA]; rfl
    · rw [hO]; rfl
  rw [hcong, hp.length_eq] at hsum
  exact hsum

theorem occ_count_eq (db : DB) (L : ℕ) :
    ((sortByNum (spotsOfLot db L)).filter (fun s => s.status == 'O')).length =
      occupiedCount db L := by
  have hp : (sortByNum (spotsOfLot db L)).Perm (spotsOfLot db L) :=
    List.perm_insertionSort _ _
  rw [(hp.filter (fun s => s.status == 'O')).length_eq]
  unfold occupiedCount spotsOfLot
  rw [List.filter_filter]
  congr 1
  apply List.filter_congr
  intro x _
  exact Bool.and_comm _ _

set_option maxHeartbeats 1000000 in
theorem editC_renumber_shape (db : DB) (L : ℕ) (lot : Parking_lot)
    (n a p : List Char) (pr : ℚ) (new_max : ℕ)
    (h2 : findLot db L = some lot) (hno : ¬ new_max < occupiedCount db L)
    (hids : (db.spots.map (fun s => s.id)).Nodup)
    (hbound : ∀ s ∈ db.spots, s.id < db.next_spot_id)
    (hstat : ∀ s ∈ spotsOfLot db L, s.status = 'A' ∨ s.status = 'O')
    (hlen : (spotsOfLot db L).length = lot.max_no_spots) :
    ∃ base : List Parking_spot,
      (edit_parking_lot_C db L n a p pr new_max).2.spots = renumberSpots base L ∧
      ((base.filter (fun s => s.parking_lot_id == L)).map (fun s => s.id)).Nodup ∧
      (base.filter (fun s => s.parking_lot_id == L)).length = new_max ∧
      (∀ u ∈ base.filter (fun t => t.parking_lot_id == L), ∀ s ∈ spotsOfLot db L,
        u.id = s.id →
        get_spot_number u.spot_number = get_spot_number s.spot_number) := by
  have hAO := occ_avail_split db L hstat
  have hOC := occ_count_eq db L
  simp only [edit_parking_lot_C, h2]
  rw [if_neg hno]
  dsimp only
  split
  · -- grow branch
    next hg =>
    refine ⟨normalizeLotSpots db L ++ growSpots db L lot.max_no_spots new_max, rfl,
      grow_append_ids_nodup db L lot.max_no_spots new_max hids hbound, ?_, ?_⟩
    · rw [grow_filter, List.length_append, List.length_map, growSpots_length, hlen]
      omega
    · intro u hu s hs hid
      exact grow_key_eq db L lot.max_no_spots new_max hids hbound hu hs hid
  · split
    · -- shrink branch
      split
      · -- deletions happen
        next hkeep =>
        refine ⟨_, rfl, ?_, ?_, ?_⟩
        · rw [shrink_filter]
          exact ((List.filter_sublist _).map _).nodup
            (((List.filter_sublist _).map _).nodup hids)
        · rw [shrink_filter]
          have n1 : ((spotsOfLot db L).map (fun s => s.id)).Nodup :=
            ((List.filter_sublist _).map _).nodup hids
          rw [length_filter_not_contains n1 (removeIds_nodup db L hids _)
            (removeIds_sub db L _)]
          have hrlen : (((sortByNumDesc ((sortByNum (spotsOfLot db L)).filter
              (fun s => s.status == 'A'))).take
                (((sortByNum (spotsOfLot db L)).filter (fun s => s.status == 'A')).length -
                  (new_max - ((sortByNum (spotsOfLot db L)).filter
                    (fun s => s.status == 'O')).length))).map (fun s => s.id)).length =
              ((sortByNum (spotsOfLot db L)).filter (fun s => s.status == 'A')).length -
                (new_max - ((sortByNum (spotsOfLot db L)).filter
                  (fun s => s.status == 'O')).length) := by
            rw [List.length_map, List.length_take]
            have hdesc : (sortByNumDesc ((sortByNum (spotsOfLot db L)).filter
                (fun s => s.status == 'A'))).length =
                ((sortByNum (spotsOfLot db L)).filter (fun s => s.status == 'A')).length :=
              (List.perm_insertionSort _ _).length_eq
            rw [hdesc]
            omega
          rw [hrlen]
          omega
        · intro u hu s hs hid
          rw [shrink_filter] at hu
          have hu1 : u ∈ spotsOfLot db L := (List.mem_filter.mp hu).1
          have : u = s := eq_of_nodup_map_id hids (List.mem_filter.mp hu1).1
            (List.mem_filter.mp hs).1 hid
          rw [this]
      · -- all Available spots kept (impossible under the length invariant)
        next hkeep =>
        refine ⟨db.spots, rfl, ?_, ?_, ?_⟩
        · exact ((List.filter_sublist _).map _).nodup hids
        · show (spotsOfLot db L).length = new_max
          omega
        · intro u hu s hs hid
          have : u = s := eq_of_nodup_map_id hids (List.mem_filter.mp hu).1
            (List.mem_filter.mp hs).1 hid
          rw [this]
    · -- equal capacity
      refine ⟨db.spots, rfl, ?_, ?_, ?_⟩
      · exact ((List.filter_sublist _).map _).nodup hids
      · show (spotsOfLot db L).length = new_max
        omega
      · intro u hu s hs hid
        have : u = s := eq_of_nodup_map_id hids (List.mem_filter.mp hu).1
          (List.mem_filter.mp hs).1 hid
        rw [this]

theorem highestNumber_init_le (l : List Parking_spot) (h₀ : ℤ) :
    h₀ ≤ l.foldl (fun h s =>
      match parseSpotNum? s.spot_number with
      | some num => if h < num then num else h
      | none => h) h₀ := by
  induction l generalizing h₀ with
  | nil => exact le_rfl
  | cons a tl ih =>
    refine le_trans ?_ (ih _)
    cases hp : parseSpotNum? a.spot_number with
    | none => simp [hp]
    | some num =>
      simp only [hp]
      split <;> omega

theorem highestNumber_ge {spots : List Parking_spot} {s : Parking_spot} {v : ℤ}
    (hs : s ∈ spots) (hv : parseSpotNum? s.spot_number = some v) :
    v ≤ highestNumber spots := by
  unfold highestNumber
  suffices h : ∀ (l : List Parking_spot) (h₀ : ℤ), s ∈ l →
      v ≤ l.foldl (fun h s =>
        match parseSpotNum? s.spot_number with
        | some num => if h < num then num else h
        | none => h) h₀ from h spots 0 hs
  intro l
  induction l with
  | nil => intro h₀ h; cases h
  | cons a tl ih =>
    intro h₀ hmem
    rcases List.mem_cons.mp hmem with rfl | htl
    · refine le_trans ?_ (highestNumber_init_le tl _)
      simp only [hv]
      split <;> omega
    · exact ih _ htl

theorem growSpots_numbers (db : DB) (L : ℕ) (old_max new_max : ℕ) :
    (growSpots db L old_max new_max).map (fun t => get_spot_number t.spot_number) =
      (List.range' 1 (new_max - old_max)).map (fun (i : ℕ) =>
        highestNumber ((normalizeLotSpots db L).filter (fun s => s.parking_lot_id == L)) + (i : ℤ)) := by
  unfold growSpots
  rw [List.map_map]
  apply List.map_congr_left
  intro i _
  show get_spot_number (format_spot_number_int _) = _
  rw [get_spot_number_format]

theorem parse_normalize {db : DB} {L : ℕ} {s : Parking_spot} (hs : s ∈ spotsOfLot db L) :
    ∃ t ∈ (normalizeLotSpots db L).filter (fun u => u.parking_lot_id == L),
      parseSpotNum? t.spot_number = parseSpotNum? s.spot_number := by
  rcases List.mem_filter.mp hs with ⟨hmem, hlot⟩
  refine ⟨(fun u => if u.parking_lot_id == L then
      { u with spot_number := format_spot_number_str u.spot_number } else u) s,
    List.mem_filter.mpr ⟨List.mem_map_of_mem _ hmem, ?_⟩, ?_⟩
  · dsimp only
    rw [if_pos hlot]
    exact hlot
  · dsimp only
    rw [if_pos hlot]
    exact parseSpotNum?_format_str s.spot_number

/-- Claim C2: for any state, ResizeLot (either implementation) never
deletes a spot whose status is Occupied — a spot of the lot that is absent
from the post-edit state must have had status Available — so across any
sequence of Reserve/Release/Resize steps only Available spots are ever
deleted. -/
theorem claim_C2 (db : DB) (L : ℕ) (n a p : List Char) (pr : ℚ) (new_max : ℕ)
    (hids : (db.spots.map (fun t => t.id)).Nodup)
    (s : Parking_spot) (hs : s ∈ db.spots) :
    ((∀ s' ∈ (edit_parking_lot_C db L n a p pr new_max).2.spots, s'.id ≠ s.id) →
      s.status = 'A') ∧
    ((∀ s' ∈ (edit_parking_lot_A db L n a p pr new_max).2.spots, s'.id ≠ s.id) →
      s.status = 'A') := by
  constructor
  · intro hdel
    by_contra hA
    rcases editC_occupied_survives db L n a p pr new_max hids hs hA with ⟨s', hsm, hsid, _, _⟩
    exact hdel s' hsm hsid
  · intro hdel
    by_contra hA
    rcases editA_occupied_survives db L n a p pr new_max hids hs hA with ⟨s', hsm, hsid, _, _⟩
    exact hdel s' hsm hsid

theorem claim_C2_witness :
    ((dbT6.spots.map (fun t => t.id)).Nodup ∧
     (⟨1, 1, ['S', '1'], 'A', none⟩ : Parking_spot) ∈ dbT6.spots ∧
     (∀ s' ∈ (edit_parking_lot_A dbT6 1 ['L'] ['A'] ['P'] 60 1).2.spots, s'.id ≠ 1)) ∧
    (Parking_spot.status ⟨1, 1, ['S', '1'], 'A', none⟩ = 'A') :=
  ⟨by decide,
   (claim_C2 dbT6 1 ['L'] ['A'] ['P'] 60 1 (by decide)
     ⟨1, 1, ['S', '1'], 'A', none⟩ (by decide)).2 (by decide)⟩

/-- Claim C1 fails on the code as stated: app.py's `edit_parking_lot` has
no renumbering pass.  In this executed trace the lot of capacity 3 with
spots S1 (free), S2 (free), S3 (occupied) is successfully resized to 1;
app.py deletes the two Available spots S1 and S2 and keeps the occupied S3,
so the surviving ordinal multiset is {3}, not {1}. -/
theorem claim_C1_counterexample :
    (edit_parking_lot_A dbT6 1 ['L'] ['A'] ['P'] 60 1).1 = .success ∧
    (findLot dbT7 1).map (fun l => l.max_no_spots) = some 1 ∧
    (spotsOfLot dbT7 1).map (fun s => get_spot_number s.spot_number) = [3] ∧
    ¬ ((spotsOfLot dbT7 1).map (fun s => get_spot_number s.spot_number)).Perm
      ((List.range' 1 1).map (fun (i : ℕ) => (i : ℤ))) := by
  decide

/-- Claim C1 (amended): after a successful CreateLot the new lot's spot
ordinals are exactly 1..capacity in order, and after any successful
controllers.py `edit_parking_lot` (from a state satisfying the quiescent
invariants: unique primary keys below the autoincrement counter, spot
states in {A, O}, and spot count equal to the recorded capacity) the lot's
ordinal multiset is exactly {1..newCapacity} and surviving spots keep their
relative order by previous ordinal; app.py's `edit_parking_lot` does not
renumber and violates this (see the counterexample). -/
theorem claim_C1 :
    (∀ (db : DB) (n a p : List Char) (pr : ℚ) (cap : ℕ),
      (∀ s ∈ db.spots, s.parking_lot_id ≠ db.next_lot_id) →
      ((spotsOfLot (create_parking_lot db n a p pr cap) db.next_lot_id).map
        (fun s => get_spot_number s.spot_number)) =
        (List.range' 1 cap).map (fun (i : ℕ) => (i : ℤ))) ∧
    (∀ (db : DB) (L : ℕ) (lot : Parking_lot) (n a p : List Char) (pr : ℚ) (new_max : ℕ),
      findLot db L = some lot →
      (db.spots.map (fun s => s.id)).Nodup →
      (∀ s ∈ db.spots, s.id < db.next_spot_id) →
      (∀ s ∈ spotsOfLot db L, s.status = 'A' ∨ s.status = 'O') →
      (spotsOfLot db L).length = lot.max_no_spots →
      ¬ new_max < occupiedCount db L →
      (edit_parking_lot_C db L n a p pr new_max).1 = .success ∧
      ((spotsOfLot (edit_parking_lot_C db L n a p pr new_max).2 L).map
        (fun s => get_spot_number s.spot_number)).Perm
        ((List.range' 1 new_max).map (fun (i : ℕ) => (i : ℤ))) ∧
      (∀ s ∈ spotsOfLot db L, ∀ t ∈ spotsOfLot db L,
        ∀ s' ∈ spotsOfLot (edit_parking_lot_C db L n a p pr new_max).2 L,
        ∀ t' ∈ spotsOfLot (edit_parking_lot_C db L n a p pr new_max).2 L,
        s'.id = s.id → t'.id = t.id →
        get_spot_number s.spot_number < get_spot_number t.spot_number →
        get_spot_number s'.spot_number < get_spot_number t'.spot_number)) := by
  constructor
  · intro db n a p pr cap hfresh
    unfold create_parking_lot spotsOfLot
    dsimp only
    rw [List.filter_append]
    have h1 : db.spots.filter (fun s => s.parking_lot_id == db.next_lot_id) = [] := by
      rw [List.filter_eq_nil_iff]
      intro s hs
      simpa using hfresh s hs
    have h2 : ((List.range' 1 cap).map (fun i =>
        ({ id := db.next_spot_id + (i - 1), parking_lot_id := db.next_lot_id,
           spot_number := format_spot_number_int (i : ℤ), status := 'A',
           user_id := none } : Parking_spot))).filter
          (fun s => s.parking_lot_id == db.next_lot_id) =
        (List.range' 1 cap).map (fun i =>
          ({ id := db.next_spot_id + (i - 1), parking_lot_id := db.next_lot_id,
             spot_number := format_spot_number_int (i : ℤ), status := 'A',
             user_id := none } : Parking_spot)) := by
      apply List.filter_eq_self.mpr
      intro t ht
      rcases List.mem_map.mp ht with ⟨i, _, rfl⟩
      simp
    rw [h1, h2, List.nil_append, List.map_map]
    apply List.map_congr_left
    intro i _
    exact get_spot_number_format _
  · intro db L lot n a p pr new_max h2 hids hbound hstat hlen hno
    obtain ⟨base, hbase, hnodup, hcount, hkeys⟩ :=
      editC_renumber_shape db L lot n a p pr new_max h2 hno hids hbound hstat hlen
    have hsp : spotsOfLot (edit_parking_lot_C db L n a p pr new_max).2 L =
        (renumberSpots base L).filter (fun s => s.parking_lot_id == L) := by
      unfold spotsOfLot
      rw [hbase]
    refine ⟨?_, ?_, ?_⟩
    · simp only [edit_parking_lot_C, h2]
      rw [if_neg hno]
    · rw [hsp]
      have hp := renumber_perm base L hnodup
      rw [hcount] at hp
      exact hp
    · intro s hsmem t htmem s' hs' t' ht' hsid htid hst
      rw [hsp, renumber_filter] at hs' ht'
      rcases List.mem_map.mp hs' with ⟨u, hu, rfl⟩
      rcases List.mem_map.mp ht' with ⟨w, hw, rfl⟩
      dsimp only at hsid htid
      have hku := hkeys u hu s hsmem hsid
      have hkw := hkeys w hw t htmem htid
      have hlt : get_spot_number u.spot_number < get_spot_number w.spot_number := by
        rw [hku, hkw]; exact hst
      have hmono := renumber_mono base L hnodup hu hw hlt
      show get_spot_number (format_spot_number_int ((renumIdx base L u : ℕ) : ℤ)) <
        get_spot_number (format_spot_number_int ((renumIdx base L w : ℕ) : ℤ))
      rw [get_spot_number_format, get_spot_number_format]
      exact_mod_cast hmono

theorem claim_C1_witness :
    ((∀ s ∈ db0.spots, s.parking_lot_id ≠ db0.next_lot_id) ∧
     findLot dbT6 1 = some ⟨1, ['L'], ['A'], ['P'], 60, 3⟩ ∧
     (dbT6.spots.map (fun s => s.id)).Nodup ∧
     (∀ s ∈ dbT6.spots, s.id < dbT6.next_spot_id) ∧
     (∀ s ∈ spotsOfLot dbT6 1, s.status = 'A' ∨ s.status = 'O') ∧
     (spotsOfLot dbT6 1).length = (⟨1, ['L'], ['A'], ['P'], 60, 3⟩ : Parking_lot).max_no_spots ∧
     ¬ (2 : ℕ) < occupiedCount dbT6 1) ∧
    ((spotsOfLot (create_parking_lot db0 ['L'] ['A'] ['P'] 60 2) db0.next_lot_id).map
      (fun s => get_spot_number s.spot_number)) =
      (List.range' 1 2).map (fun (i : ℕ) => (i : ℤ)) ∧
    ((edit_parking_lot_C dbT6 1 ['N'] ['B'] ['Q'] 50 2).1 = .success ∧
     ((spotsOfLot (edit_parking_lot_C dbT6 1 ['N'] ['B'] ['Q'] 50 2).2 1).map
       (fun s => get_spot_number s.spot_number)).Perm
       ((List.range' 1 2).map (fun (i : ℕ) => (i : ℤ))) ∧
     (∀ s ∈ spotsOfLot dbT6 1, ∀ t ∈ spotsOfLot dbT6 1,
       ∀ s' ∈ spotsOfLot (edit_parking_lot_C dbT6 1 ['N'] ['B'] ['Q'] 50 2).2 1,
       ∀ t' ∈ spotsOfLot (edit_parking_lot_C dbT6 1 ['N'] ['B'] ['Q'] 50 2).2 1,
       s'.id = s.id → t'.id = t.id →
       get_spot_number s.spot_number < get_spot_number t.spot_number →
       get_spot_number s'.spot_number < get_spot_number t'.spot_number)) :=
  ⟨⟨by decide, by decide, by decide, by decide, by decide, by decide, by decide⟩,
   claim_C1.1 db0 ['L'] ['A'] ['P'] 60 2 (by decide),
   claim_C1.2 dbT6 1 ⟨1, ['L'], ['A'], ['P'], 60, 3⟩ ['N'] ['B'] ['Q'] 50 2
     (by decide) (by decide) (by decide) (by decide) (by decide) (by decide)⟩

/-- Claim C4 fails on the code as stated: app.py's `edit_parking_lot`
numbers new spots from the lot's recorded capacity, not from the maximum
ordinal in use.  In this executed trace the lot has recorded capacity 1 but
its surviving spot is numbered S3 (an earlier shrink kept the occupied
highest spot); growing to 3 then creates spots S2 and S3, and the new S3
collides with the existing S3 instead of being strictly greater than the
maximum ordinal in use. -/
theorem claim_C4_counterexample :
    (findLot dbT8 1).map (fun l => l.max_no_spots) = some 1 ∧
    (spotsOfLot dbT8 1).map (fun s => get_spot_number s.spot_number) = [3] ∧
    (edit_parking_lot_A dbT8 1 ['L'] ['A'] ['P'] 60 3).1 = .success ∧
    ((spotsOfLot (edit_parking_lot_A dbT8 1 ['L'] ['A'] ['P'] 60 3).2 1).map
      (fun s => get_spot_number s.spot_number)) = [3, 2, 3] ∧
    ¬ ((spotsOfLot (edit_parking_lot_A dbT8 1 ['L'] ['A'] ['P'] 60 3).2 1).map
      (fun s => get_spot_number s.spot_number)).Nodup := by
  decide

/-- Claim C4 (amended): in controllers.py's `edit_parking_lot` the spots
created by a grow resize are numbered `highest+1, highest+2, ...` from the
maximum ordinal in use, so each new ordinal is strictly greater than every
parsable existing ordinal of the lot and the new ordinals are pairwise
distinct; app.py's variant instead numbers from the recorded capacity and
can collide (see the counterexample). -/
theorem claim_C4 (db : DB) (L : ℕ) (lot : Parking_lot) (n a p : List Char)
    (pr : ℚ) (new_max : ℕ)
    (h2 : findLot db L = some lot) (hno : ¬ new_max < occupiedCount db L)
    (hgrow : lot.max_no_spots < new_max) :
    (edit_parking_lot_C db L n a p pr new_max).1 = .success ∧
    (∀ t ∈ growSpots db L lot.max_no_spots new_max,
      ∀ s ∈ spotsOfLot db L, ∀ v : ℤ, parseSpotNum? s.spot_number = some v →
        v < get_spot_number t.spot_number) ∧
    ((growSpots db L lot.max_no_spots new_max).map
      (fun t => get_spot_number t.spot_number)).Nodup := by
  refine ⟨?_, ?_, ?_⟩
  · simp only [edit_parking_lot_C, h2]
    rw [if_neg hno]
  · intro t ht s hs v hv
    unfold growSpots at ht
    rcases List.mem_map.mp ht with ⟨i, hi, rfl⟩
    dsimp only
    rw [get_spot_number_format]
    have hi1 : 1 ≤ i := (List.mem_range'_1.mp hi).1
    rcases parse_normalize hs with ⟨u', hu', hpu⟩
    have hle : v ≤ highestNumber ((normalizeLotSpots db L).filter
        (fun u => u.parking_lot_id == L)) :=
      highestNumber_ge hu' (hpu.trans hv)
    omega
  · rw [growSpots_numbers]
    refine List.Nodup.map ?_ (List.nodup_range' _ _)
    intro a b hab
    dsimp only at hab
    omega

theorem claim_C4_witness :
    (findLot dbR 1 = some lotW ∧ ¬ 2 < occupiedCount dbR 1 ∧ lotW.max_no_spots < 2) ∧
    ((edit_parking_lot_C dbR 1 ['L'] ['A'] ['P'] 60 2).1 = .success ∧
     (∀ t ∈ growSpots dbR 1 lotW.max_no_spots 2,
       ∀ s ∈ spotsOfLot dbR 1, ∀ v : ℤ, parseSpotNum? s.spot_number = some v →
         v < get_spot_number t.spot_number) ∧
     ((growSpots dbR 1 lotW.max_no_spots 2).map
       (fun t => get_spot_number t.spot_number)).Nodup) :=
  ⟨⟨by decide, by decide, by decide⟩,
   claim_C4 dbR 1 lotW ['L'] ['A'] ['P'] 60 2 (by decide) (by decide) (by decide)⟩

/-- Claim C5 fails on the code as stated: `reserve_spot` selects the first
Available row in primary-key order (the query has no `order_by`), which is
not always the lowest ordinal.  In this trace — produced entirely by the
code's own operations (create capacity 3, three reservations, releases, an
app.py resize to 1 that deletes S1 and S2, a release, and a resize back to
2 that appends a new S2) — the lot holds Available spots numbered S3 (id 3)
and S2 (id 4), and Reserve picks the spot numbered S3 although an Available
spot with the strictly smaller ordinal 2 exists. -/
theorem claim_C5_counterexample :
    activeBookingFor dbT9 1 = none ∧
    (reserve_spot dbT9 1 1 ['V'] 99).1 = .reserved 3 4 ∧
    (∀ s ∈ spotsOfLot dbT9 1, s.id = 3 →
      s.status = 'A' ∧ get_spot_number s.spot_number = 3) ∧
    (∃ s ∈ spotsOfLot dbT9 1, s.status = 'A' ∧ get_spot_number s.spot_number = 2) := by
  decide

/-- Claim C5 (amended): Reserve deterministically picks `firstAvailable` —
the first Available spot of the lot in primary-key (insertion) order, which
need not be the lowest ordinal after app.py resizes — marks it Occupied by
the user and appends the new booking; when the lot has no Available spot it
fails with LotFull and changes no state. -/
theorem claim_C5 (db : DB) (u L : ℕ) (v : List Char) (now : ℤ) (lot : Parking_lot)
    (h1 : activeBookingFor db u = none) (h2 : findLot db L = some lot) :
    (∀ sp : Parking_spot, firstAvailable db L = some sp →
      reserve_spot db u L v now =
        (.reserved sp.id db.next_booking_id,
         { db with
           spots := db.spots.map (fun s =>
             if s.id == sp.id then { s with status := 'O', user_id := some u } else s),
           bookings := db.bookings ++
             [{ id := db.next_booking_id, user_id := u, parking_lot_id := lot.id,
                parking_spot_id := sp.id, vehicle_number := v, in_time := now,
                out_time := none, cost := none }],
           next_booking_id := db.next_booking_id + 1 })) ∧
    (firstAvailable db L = none → reserve_spot db u L v now = (.lotFull, db)) :=
  ⟨fun _ h3 => reserve_spot_success v now h1 h2 h3,
   fun h3 => reserve_spot_lotFull v now h1 h2 h3⟩

theorem claim_C5_witness :
    (activeBookingFor dbR 1 = none ∧ findLot dbR 1 = some lotW ∧
     firstAvailable dbR 1 = some ⟨1, 1, ['S', '1'], 'A', none⟩ ∧
     activeBookingFor dbF 1 = none ∧ findLot dbF 1 = some lotW ∧
     firstAvailable dbF 1 = none) ∧
    reserve_spot dbR 1 1 ['V'] 9 =
      (.reserved 1 2,
       { dbR with
         spots := dbR.spots.map (fun s =>
           if s.id == 1 then { s with status := 'O', user_id := some 1 } else s),
         bookings := dbR.bookings ++
           [{ id := 2, user_id := 1, parking_lot_id := lotW.id,
              parking_spot_id := 1, vehicle_number := ['V'], in_time := 9,
              out_time := none, cost := none }],
         next_booking_id := 3 }) ∧
    reserve_spot dbF 1 1 ['V'] 9 = (.lotFull, dbF) :=
  ⟨⟨by decide, by decide, by decide, by decide, by decide, by decide⟩,
   (claim_C5 dbR 1 1 ['V'] 9 lotW (by decide) (by decide)).1
     ⟨1, 1, ['S', '1'], 'A', none⟩ (by decide),
   (claim_C5 dbF 1 1 ['V'] 9 lotW (by decide) (by decide)).2 (by decide)⟩

theorem cost_eval_first :
    pyRound2 (max 0 (((3600 - 0 : ℤ) : ℚ) / 3600) * 60) = 60 := by
  have h1 : (((3600 - 0 : ℤ) : ℚ) / 3600) = 1 := by push_cast; norm_num
  rw [h1, max_eq_right (by norm_num : (0 : ℚ) ≤ 1)]
  rw [show (1 : ℚ) * 60 = ((60 : ℤ) : ℚ) by push_cast; ring]
  rw [pyRound2_intCast]
  norm_num

theorem cost_eval_second :
    pyRound2 (max 0 (((7200 - 0 : ℤ) : ℚ) / 3600) * 60) = 120 := by
  have h1 : (((7200 - 0 : ℤ) : ℚ) / 3600) = 2 := by push_cast; norm_num
  rw [h1, max_eq_right (by norm_num : (0 : ℚ) ≤ 2)]
  rw [show (2 : ℚ) * 60 = ((120 : ℤ) : ℚ) by push_cast; ring]
  rw [pyRound2_intCast]
  norm_num

/-- Claim C6 fails on the code: neither release implementation checks
whether `out_time` is already set.  In this executed trace booking 1
(opened at time 0, price 60/h) was released at time 3600 with cost 60, yet
a second Release by its owner at time 7200 succeeds again (no
AlreadyReleased), overwrites `out_time`, and recomputes the cost to 120
from the later clock value — a double charge. -/
theorem claim_C6_counterexample :
    (findBooking dbT5 1).map (fun b => b.out_time) = some (some 3600) ∧
    (findBooking dbT5 1).map (fun b => b.cost) = some (some (60 : ℚ)) ∧
    (release_spot_A dbT5 1 1 7200).1 = .success ∧
    (release_spot_C dbT5 1 1 7200).1 = .success ∧
    (findBooking (release_spot_A dbT5 1 1 7200).2 1).map (fun b => b.out_time) =
      some (some 7200) ∧
    (findBooking (release_spot_A dbT5 1 1 7200).2 1).map (fun b => b.cost) =
      some (some (120 : ℚ)) ∧
    (60 : ℚ) ≠ 120 := by
  refine ⟨by decide, ?_, by decide, by decide, by decide, ?_, by norm_num⟩
  · have h : (findBooking dbT5 1).map (fun b => b.cost) =
        some (some (pyRound2 (max 0 (((3600 - 0 : ℤ) : ℚ) / 3600) * 60))) := rfl
    rw [h, cost_eval_first]
  · have h : (findBooking (release_spot_A dbT5 1 1 7200).2 1).map (fun b => b.cost) =
        some (some (pyRound2 (max 0 (((7200 - 0 : ℤ) : ℚ) / 3600) * 60))) := rfl
    rw [h, cost_eval_second]

/-- Claim C6 (amended): Release by the booking's owner succeeds every time
it is called — there is no AlreadyReleased guard — and each call, in both
implementations, overwrites `end_time` with the current clock value and
recomputes the cost from that later clock value (the app.py formula with
the clamp, the controllers.py formula without it), regardless of whether
the booking was already released. -/
theorem claim_C6 (db : DB) (bid u : ℕ) (now : ℤ) (b : Booking) (lot : Parking_lot)
    (hb : findBooking db bid = some b) (hu : b.user_id = u)
    (hl : findLot db b.parking_lot_id = some lot) :
    (release_spot_A db bid u now).1 = .success ∧
    (release_spot_C db bid u now).1 = .success ∧
    (∀ x ∈ (release_spot_A db bid u now).2.bookings, x.id = bid →
      x.out_time = some now ∧
      x.cost = some (pyRound2 (max 0 (((now - b.in_time : ℤ) : ℚ) / 3600) *
        lot.price_per_hour))) ∧
    (∀ x ∈ (release_spot_C db bid u now).2.bookings, x.id = bid →
      x.out_time = some now ∧
      x.cost = some (pyRound2 ((((now - b.in_time : ℤ) : ℚ) / 3600) *
        lot.price_per_hour))) := by
  rw [release_spot_A_success now hb hu hl, release_spot_C_success now hb hu hl]
  refine ⟨rfl, rfl, ?_, ?_⟩ <;>
  · intro x hx hid
    rcases List.mem_map.mp hx with ⟨y, hy, rfl⟩
    by_cases h : y.id = bid
    · rw [if_pos (show (y.id == bid) = true by simp [h])]
      exact ⟨rfl, rfl⟩
    · rw [if_neg (show ¬ ((y.id == bid) = true) by simp [h])] at hid
      exact absurd hid h

/-- Claim C7 fails on the code as stated: the controllers.py release does
not clamp the duration.  With a booking whose `start_time` is 3600 and a
clock reading 0, controllers.py computes duration −1 h and cost −60 < 0. -/
theorem claim_C7_counterexample :
    (release_spot_C dbW 1 1 0).1 = .success ∧
    (∀ x ∈ (release_spot_C dbW 1 1 0).2.bookings, x.id = 1 →
      x.out_time = some 0 ∧ x.cost = some (-60 : ℚ)) ∧
    ((-60 : ℚ) < 0) := by
  have hb : findBooking dbW 1 = some bW := by decide
  have hl : findLot dbW bW.parking_lot_id = some lotW := by decide
  rw [release_spot_C_success 0 hb (show bW.user_id = 1 from rfl) hl]
  refine ⟨rfl, ?_, by norm_num⟩
  intro x hx hid
  rcases List.mem_map.mp hx with ⟨y, hy, rfl⟩
  have hy1 : y = bW := by
    have : dbW.bookings = [bW] := rfl
    rw [this] at hy
    simpa using hy
  subst hy1
  rw [if_pos (show (bW.id == 1) = true by decide)]
  refine ⟨rfl, ?_⟩
  show some (pyRound2 ((((0 - bW.in_time : ℤ) : ℚ) / 3600) * lotW.price_per_hour)) = some (-60 : ℚ)
  have h1 : (((0 - bW.in_time : ℤ) : ℚ) / 3600) * lotW.price_per_hour = (((-60 : ℤ) : ℤ) : ℚ) := by
    show (((0 - 3600 : ℤ) : ℚ) / 3600) * (60 : ℚ) = _
    push_cast
    norm_num
  rw [h1, pyRound2_intCast]
  norm_num

/-- Claim C7 (amended): the app.py release clamps the duration at zero, so
for every successful owner release there `cost = round(max 0 dur * price, 2)
≥ 0` (for a non-negative hourly price), `end_time` is set to the clock
value, and the spot becomes Available with its occupant cleared — even when
the clock reads earlier than `start_time`; the controllers.py release omits
the clamp and can record a negative cost. -/
theorem claim_C7 (db : DB) (bid u : ℕ) (now : ℤ) (b : Booking) (lot : Parking_lot)
    (hb : findBooking db bid = some b) (hu : b.user_id = u)
    (hl : findLot db b.parking_lot_id = some lot) (hp : 0 ≤ lot.price_per_hour) :
    (release_spot_A db bid u now).1 = .success ∧
    (∀ x ∈ (release_spot_A db bid u now).2.bookings, x.id = bid →
      x.out_time = some now ∧
      x.cost = some (pyRound2 (max 0 (((now - b.in_time : ℤ) : ℚ) / 3600) * lot.price_per_hour)) ∧
      ∀ c : ℚ, x.cost = some c → 0 ≤ c) ∧
    (∀ s ∈ (release_spot_A db bid u now).2.spots, s.id = b.parking_spot_id →
      s.status = 'A' ∧ s.user_id = none) := by
  rw [release_spot_A_success now hb hu hl]
  refine ⟨rfl, ?_, ?_⟩
  · intro x hx hid
    rcases List.mem_map.mp hx with ⟨y, hy, rfl⟩
    by_cases h : y.id = bid
    · rw [if_pos (show (y.id == bid) = true by simp [h])]
      refine ⟨rfl, rfl, ?_⟩
      intro c hc
      have hc' : c = pyRound2 (max 0 (((now - b.in_time : ℤ) : ℚ) / 3600) * lot.price_per_hour) := by
        simpa using hc.symm
      subst hc'
      exact pyRound2_nonneg (mul_nonneg (le_max_left 0 _) hp)
    · rw [if_neg (show ¬ ((y.id == bid) = true) by simp [h])] at hid
      exact absurd hid h
  · intro s hs hid
    rcases List.mem_map.mp hs with ⟨y, hy, rfl⟩
    by_cases h : y.id = b.parking_spot_id
    · rw [if_pos (show (y.id == b.parking_spot_id) = true by simp [h])]
      exact ⟨rfl, rfl⟩
    · rw [if_neg (show ¬ ((y.id == b.parking_spot_id) = true) by simp [h])] at hid
      exact absurd hid h

theorem claim_C7_witness :
    (findBooking dbW 1 = some bW ∧ bW.user_id = 1 ∧
     findLot dbW bW.parking_lot_id = some lotW ∧ 0 ≤ lotW.price_per_hour) ∧
    ((release_spot_A dbW 1 1 7200).1 = .success ∧
     (∀ x ∈ (release_spot_A dbW 1 1 7200).2.bookings, x.id = 1 →
       x.out_time = some 7200 ∧
       x.cost = some (pyRound2 (max 0 (((7200 - bW.in_time : ℤ) : ℚ) / 3600) * lotW.price_per_hour)) ∧
       ∀ c : ℚ, x.cost = some c → 0 ≤ c) ∧
     (∀ s ∈ (release_spot_A dbW 1 1 7200).2.spots, s.id = bW.parking_spot_id →
       s.status = 'A' ∧ s.user_id = none)) :=
  ⟨⟨by decide, by decide, by decide, by decide⟩,
   claim_C7 dbW 1 1 7200 bW lotW (by decide) (by decide) (by decide) (by decide)⟩

theorem claim_C6_witness :
    (findBooking dbR 1 = some bR ∧ bR.user_id = 1 ∧ bR.out_time = some 3600 ∧
     findLot dbR bR.parking_lot_id = some lotW) ∧
    ((release_spot_A dbR 1 1 7200).1 = .success ∧
     (release_spot_C dbR 1 1 7200).1 = .success ∧
     (∀ x ∈ (release_spot_A dbR 1 1 7200).2.bookings, x.id = 1 →
       x.out_time = some 7200 ∧
       x.cost = some (pyRound2 (max 0 (((7200 - bR.in_time : ℤ) : ℚ) / 3600) *
         lotW.price_per_hour))) ∧
     (∀ x ∈ (release_spot_C dbR 1 1 7200).2.bookings, x.id = 1 →
       x.out_time = some 7200 ∧
       x.cost = some (pyRound2 ((((7200 - bR.in_time : ℤ) : ℚ) / 3600) *
         lotW.price_per_hour)))) :=
  ⟨⟨by decide, by decide, by decide, by decide⟩,
   claim_C6 dbR 1 1 7200 bR lotW (by decide) (by decide) (by decide)⟩

end Parking

